import Mathlib

/-!
Verification of the Manim animation-generation backend against its
natural-language specification.

The Python sources are shallowly embedded: pure string-rewriting and
decision logic is translated into executable Lean functions over
`List Char` / `String`, module-level mutable state is made explicit as
state-passing, and the regular-expression rewrites of the optimizer /
auto-fixer are implemented as deterministic scanners that reproduce the
leftmost, non-overlapping, greedy semantics of the concrete patterns
used by the code (each pattern is simple enough that its backtracking
behaviour is deterministic; this is argued pattern by pattern in the
comments).
-/

set_option maxRecDepth 8000000
set_option linter.unusedVariables false

namespace ManimSpec

/-! ## String / scanner primitives (Python `re` / `str` semantics) -/

/-- ASCII whitespace recognized by Python's `str.strip`, `str.split` and `\s`. -/
def pyIsSpace (c : Char) : Bool :=
  c == ' ' || c == '\t' || c == '\n' || c == '\r' || c == '\x0b' || c == '\x0c'

/-- ASCII decimal digit, Python's `\d` (the generated scripts are ASCII). -/
def pyIsDigit (c : Char) : Bool := '0' ≤ c && c ≤ '9'

/-- Python's `\w`: word character. -/
def pyIsWord (c : Char) : Bool :=
  pyIsDigit c || ('a' ≤ c && c ≤ 'z') || ('A' ≤ c && c ≤ 'Z') || c == '_'

/-- Length of the longest prefix satisfying `p`. -/
def countWhile (p : Char → Bool) : List Char → Nat
  | [] => 0
  | c :: cs => if p c then countWhile p cs + 1 else 0

/-- Build a `String` back from a character list. -/
def strOf (l : List Char) : String := ⟨l⟩

/-- Python `str.lower` (ASCII range; CJK characters are unaffected in both). -/
def pyLowerChar (c : Char) : Char :=
  if 'A' ≤ c && c ≤ 'Z' then Char.ofNat (c.toNat + 32) else c

def pyLower (s : String) : String := strOf (s.toList.map pyLowerChar)

/-- Python `str.strip()`: drop leading and trailing whitespace. -/
def pyStripList (l : List Char) : List Char :=
  ((l.dropWhile pyIsSpace).reverse.dropWhile pyIsSpace).reverse

def pyStrip (s : String) : String := strOf (pyStripList s.toList)

/-- Boolean infix (substring) test on lists. -/
def listInfix (needle : List Char) : List Char → Bool
  | [] => needle.isEmpty
  | c :: cs => needle.isPrefixOf (c :: cs) || listInfix needle cs

/-- Python's substring test `needle in hay`. -/
def pyContains (hay needle : String) : Bool :=
  listInfix needle.toList hay.toList

/-- Python `str.split()` with no argument: split on whitespace runs, no empties. -/
def wsSplitAux : List Char → List Char → List (List Char)
  | [], acc => if acc.isEmpty then [] else [acc.reverse]
  | c :: cs, acc =>
    if pyIsSpace c then
      if acc.isEmpty then wsSplitAux cs [] else acc.reverse :: wsSplitAux cs []
    else wsSplitAux cs (c :: acc)

def pySplit (s : String) : List String := (wsSplitAux s.toList []).map strOf

/-- Python `str.replace(old, new)`: replace all non-overlapping occurrences,
left to right (fuel-based structural recursion so that concrete instances
reduce in the kernel; one unit of fuel per input position suffices because
every step consumes at least one character). -/
def pyReplaceF (old new : List Char) : Nat → List Char → List Char
  | _, [] => []
  | 0, l => l
  | fuel + 1, c :: cs =>
    if old.isPrefixOf (c :: cs) && !old.isEmpty then
      new ++ pyReplaceF old new fuel ((c :: cs).drop old.length)
    else
      c :: pyReplaceF old new fuel cs

def pyReplace (l old new : List Char) : List Char := pyReplaceF old new l.length l

/-- Value of a digit list as a natural number. -/
def natOfDigits : List Char → Nat → Nat
  | [], acc => acc
  | c :: cs, acc => natOfDigits cs (acc * 10 + (c.toNat - '0'.toNat))

/-- Exact value of a decimal literal: `mant / 10 ^ scale`.  Python compares
these literals after `float()` conversion; for the short decimal literals
involved the conversion is order-preserving and the comparisons against the
decimal ceilings are exact, so comparing the exact decimals is faithful. -/
structure PyNum where
  mant : Nat
  scale : Nat
deriving DecidableEq

/-- `a < b` on exact decimals. -/
def PyNum.ltB (a b : PyNum) : Bool :=
  Nat.blt (a.mant * 10 ^ b.scale) (b.mant * 10 ^ a.scale)

/-- Parse a decimal literal of shape `\d+(\.\d+)?` at the head of the input.
Returns the exact value and the number of characters consumed.  Per the
backtracking analysis: the integer part is the maximal digit run; the
fractional part is taken (maximal) whenever a dot followed by a digit is
present — if the enclosing pattern then fails, the dot-free alternative
fails as well, so committing is faithful. -/
def scanNum (cs : List Char) : Option (PyNum × Nat) :=
  let d := countWhile pyIsDigit cs
  if d = 0 then none
  else
    let ip := natOfDigits (cs.take d) 0
    match cs.drop d with
    | '.' :: r2 =>
      let f := countWhile pyIsDigit r2
      if f = 0 then some (⟨ip, 0⟩, d)
      else some (⟨ip * 10 ^ f + natOfDigits (r2.take f) 0, f⟩, d + 1 + f)
    | _ => some (⟨ip, 0⟩, d)

/-- `re.sub` driver: scan left to right; at each position apply the matcher,
which returns the consumed length and the replacement text for a match.  On a
match, emit the replacement and resume scanning after the consumed text (the
matcher always sees the original suffix, exactly as Python's `re.sub`).
The `n = 0` guard is unreachable for the matchers below (every pattern
consumes at least one character); together with the fuel discipline it makes
the recursion structural, so concrete instances reduce in the kernel. -/
def applySubF (tryM : List Char → Option (Nat × List Char)) : Nat → List Char → List Char
  | _, [] => []
  | 0, l => l
  | fuel + 1, c :: cs =>
    match tryM (c :: cs) with
    | some (n, repl) =>
      if n = 0 then c :: applySubF tryM fuel cs
      else repl ++ applySubF tryM fuel ((c :: cs).drop n)
    | none => c :: applySubF tryM fuel cs

def applySub (tryM : List Char → Option (Nat × List Char)) (l : List Char) : List Char :=
  applySubF tryM l.length l

/-- Like `applySub`, but replaces only the first match (`re.sub(..., count=1)`). -/
def applySubOnce (tryM : List Char → Option (Nat × List Char)) : List Char → List Char
  | [] => []
  | c :: cs =>
    match tryM (c :: cs) with
    | some (n, repl) =>
      if n = 0 then c :: applySubOnce tryM cs
      else repl ++ (c :: cs).drop n
    | none => c :: applySubOnce tryM cs

/-- Collect the first capture group of every non-overlapping match
(`re.findall` semantics for single-group patterns). -/
def collectMatchesF (tryM : List Char → Option (Nat × List Char)) :
    Nat → List Char → List (List Char)
  | _, [] => []
  | 0, _ => []
  | fuel + 1, c :: cs =>
    match tryM (c :: cs) with
    | some (n, grp) =>
      if n = 0 then collectMatchesF tryM fuel cs
      else grp :: collectMatchesF tryM fuel ((c :: cs).drop n)
    | none => collectMatchesF tryM fuel cs

def collectMatches (tryM : List Char → Option (Nat × List Char)) (l : List Char) :
    List (List Char) :=
  collectMatchesF tryM l.length l

/-- Does any match exist (`re.search` as a boolean)? -/
def anyMatch (tryM : List Char → Option (Nat × List Char)) : List Char → Bool
  | [] => false
  | c :: cs =>
    match tryM (c :: cs) with
    | some _ => true
    | none => anyMatch tryM cs

/-! ## `utils/helpers.py` — `validate_prompt` -/

def problematic_keywords : List String := ["hack", "exploit", "malicious", "virus"]

/-- `validate_prompt(prompt)` from `utils/helpers.py`. -/
def validate_prompt (prompt : String) : Bool :=
  if prompt = "" || pyStrip prompt = "" then false
  else if (pyStrip prompt).length < 3 then false
  else if problematic_keywords.any (fun k => pyContains (pyLower prompt) k) then false
  else true

/-! ## `services/audio_processor.py` — `get_voice_for_language` -/

def language_to_voice : List (String × String) :=
  [("en", "alloy"), ("es", "nova"), ("fr", "shimmer"), ("de", "onyx"),
   ("it", "nova"), ("pt", "nova"), ("ru", "echo"), ("ja", "shimmer"),
   ("ko", "shimmer"), ("zh", "nova"), ("ar", "fable"), ("hi", "nova")]

/-- Python `dict.get(key, default)` over the association list above. -/
def dictGetD (tbl : List (String × String)) (k d : String) : String :=
  match tbl.find? (fun e => e.1 == k) with
  | some e => e.2
  | none => d

/-- `get_voice_for_language(language, user_voice)` from `services/audio_processor.py`. -/
def get_voice_for_language (language : String) (user_voice : String) : String :=
  if user_voice ≠ "alloy" then user_voice
  else dictGetD language_to_voice language "alloy"

/-! ## `middleware/auth.py`

`supabase.auth.get_user` is an external call; it is abstracted as a function
`get_user : String → Option AuthUser` (`none` covers both a rejected token and
any exception, which the code maps to the same outcome).  The module-level
`if BYPASS_AUTH:` redefinition that happens at import time is modeled by
`authEntryPoints`, which returns the pair of dependency functions the module
exports for a given value of the flag. -/

structure AuthUser where
  user_id : String
  email : String
  user_metadata : List (String × String)
deriving DecidableEq

def test_user : AuthUser :=
  { user_id := "test-user-id", email := "test@example.com",
    user_metadata := [("name", "Test User")] }

/-- `verify_token` (non-bypass version): FastAPI's `HTTPBearer` rejects a
request without a bearer credential (modeled as error 403); an unverifiable
token yields the generic 401. -/
def verify_token_impl (get_user : String → Option AuthUser) :
    Option String → Except Nat AuthUser
  | none => .error 403
  | some token =>
    match get_user token with
    | some u => .ok u
    | none => .error 401

/-- `get_current_user` (non-bypass version) just forwards `verify_token`. -/
def get_current_user_impl (get_user : String → Option AuthUser)
    (credentials : Option String) : Except Nat AuthUser :=
  verify_token_impl get_user credentials

/-- `optional_auth` from `middleware/auth.py`: header absent, a malformed
scheme, an unpacking error (`scheme, token = authorization.split()` with a
part count other than two raises, and the handler catches every exception)
and a failed verification all resolve to `none`. -/
def optional_auth (get_user : String → Option AuthUser) :
    Option String → Option AuthUser
  | none => none
  | some authorization =>
    match pySplit authorization with
    | [scheme, token] =>
      if pyLower scheme = "bearer" then
        match get_user token with
        | some u => some u
        | none => none
      else none
    | _ => none

/-- `BYPASS_AUTH = os.getenv("BYPASS_AUTH", "false").lower() == "true"`. -/
def bypass_env_flag (env : String → Option String) : Bool :=
  pyLower ((env "BYPASS_AUTH").getD "false") = "true"

/-- The dependency functions exported by `middleware/auth.py` after import. -/
structure AuthEntryPoints where
  get_current_user : (String → Option AuthUser) → Option String → Except Nat AuthUser
  optional_auth : (String → Option AuthUser) → Option String → Option AuthUser

/-- After the module body runs: when `BYPASS_AUTH` is true, `verify_token`
and `get_current_user` are rebound to stubs that always return the test
identity; `optional_auth` is left as defined. -/
def authEntryPoints (BYPASS_AUTH : Bool) : AuthEntryPoints :=
  if BYPASS_AUTH then
    { get_current_user := fun _ _ => .ok test_user,
      optional_auth := optional_auth }
  else
    { get_current_user := get_current_user_impl,
      optional_auth := optional_auth }

/-! ## `utils/supabase_config.py`

The module state (`_supabase_config`) is passed explicitly.  Python's
`create_client` constructs a **new** `Client` object on every call; client
instances are therefore identified by their creation index, recorded in the
state as `clients_created`. -/

structure SupabaseConfig where
  url : String
  service_role_key : String
  storage_bucket : String
deriving DecidableEq

structure SupabaseModule where
  supabase_config : Option SupabaseConfig
  clients_created : Nat
deriving DecidableEq

/-- `SupabaseConfig.__init__`: reads the three environment variables;
`if not self.url` / `if not self.service_role_key` treat both a missing
variable and an empty string as absent and raise. -/
def SupabaseConfig.init (env : String → Option String) : Except String SupabaseConfig :=
  let u := (env "SUPABASE_URL").getD ""
  let k := (env "SUPABASE_SERVICE_ROLE_KEY").getD ""
  let bucket := (env "SUPABASE_STORAGE_BUCKET").getD "video-generations"
  if u = "" then .error "SUPABASE_URL environment variable is required"
  else if k = "" then .error "SUPABASE_SERVICE_ROLE_KEY environment variable is required"
  else .ok { url := u, service_role_key := k, storage_bucket := bucket }

/-- `get_supabase_config()`: lazily creates and caches the module-global
configuration object. -/
def get_supabase_config (env : String → Option String) (s : SupabaseModule) :
    Except String (SupabaseConfig × SupabaseModule) :=
  match s.supabase_config with
  | some c => .ok (c, s)
  | none =>
    match SupabaseConfig.init env with
    | .ok c => .ok (c, { s with supabase_config := some c })
    | .error e => .error e

/-- `SupabaseConfig.create_client`: constructs a fresh client (identified by
its creation index). -/
def SupabaseConfig.create_client (_c : SupabaseConfig) (s : SupabaseModule) :
    Nat × SupabaseModule :=
  (s.clients_created, { s with clients_created := s.clients_created + 1 })

/-- `get_supabase_client()` from `utils/supabase_config.py`: fetches the
cached configuration and then calls `create_client` on it — on every call. -/
def get_supabase_client (env : String → Option String) (s : SupabaseModule) :
    Except String (Nat × SupabaseModule) :=
  match get_supabase_config env s with
  | .error e => .error e
  | .ok (c, s1) => .ok (c.create_client s1)

/-- `get_storage_bucket_name()` from `utils/supabase_config.py`. -/
def get_storage_bucket_name (env : String → Option String) (s : SupabaseModule) :
    Except String (String × SupabaseModule) :=
  match get_supabase_config env s with
  | .error e => .error e
  | .ok (c, s1) => .ok (c.storage_bucket, s1)

/-! ## `services/database_service.py` and the orchestration in `app.py`

The two Supabase tables are modeled as lists in insertion (creation) order;
`.insert` appends and `.update(...).eq(col, v)` rewrites every row whose
column matches (PostgREST semantics of the client calls made by the code). -/

structure StatusRow where
  video_uuid : String
  build_status : String
  step : Nat
  prompt : Option String
deriving DecidableEq

structure VideoRow where
  id : String
  video_id : String
  video_url : Option String
  user_name : Option String
  prompt : Option String
deriving DecidableEq

structure Database where
  videos : List VideoRow
  status : List StatusRow
deriving DecidableEq

/-- The `if prompt:` guard used before adding the optional column. -/
def truthyPrompt : Option String → Option String
  | some s => if s = "" then none else some s
  | none => none

/-- `DatabaseService.create_video_record`: inserts a VideoRecord; the
database-assigned UUID of the new row is supplied as `new_id`. -/
def create_video_record (db : Database) (new_id video_id : String)
    (prompt user_name : Option String) : String × Database :=
  (new_id,
   { db with
       videos := db.videos ++
         [{ id := new_id, video_id := video_id, video_url := none,
            user_name := user_name, prompt := truthyPrompt prompt }] })

/-- `DatabaseService.create_status_record`: inserts the first StatusRecord. -/
def create_status_record (db : Database) (db_uuid : String)
    (initial_status : String) (step : Nat) (prompt : Option String) : Database :=
  { db with
      status := db.status ++
        [{ video_uuid := db_uuid, build_status := initial_status, step := step,
           prompt := truthyPrompt prompt }] }

/-- `DatabaseService.add_step_status`: inserts an additional StatusRecord. -/
def add_step_status (db : Database) (db_uuid : String) (step : Nat)
    (status_message : String) (prompt : Option String) : Database :=
  { db with
      status := db.status ++
        [{ video_uuid := db_uuid, build_status := status_message, step := step,
           prompt := truthyPrompt prompt }] }

/-- `DatabaseService.update_build_status`:
`supabase.table('status').update({'build_status': msg}).eq('video_uuid', db_uuid)` —
rewrites the `build_status` of every status row whose foreign key matches. -/
def update_build_status (db : Database) (db_uuid status_message : String) : Database :=
  { db with
      status := db.status.map fun row =>
        if row.video_uuid = db_uuid then { row with build_status := status_message }
        else row }

/-- `DatabaseService.update_video_url`: updates the VideoRecord located by
its externally visible video id. -/
def update_video_url (db : Database) (video_id video_url : String) : Database :=
  { db with
      videos := db.videos.map fun v =>
        if v.video_id = video_id then { v with video_url := some video_url } else v }

/-- The synchronous part of `POST /generate` in `app.py` (happy path):
create the VideoRecord, then the step-1 StatusRecord. -/
def generate_request_sync (db : Database) (db_uuid animation_id : String)
    (timestamped_prompt : String) (user_name : Option String) : Database :=
  let (u, db1) := create_video_record db db_uuid animation_id
      (some timestamped_prompt) user_name
  create_status_record db1 u "🚀 开始生成视频" 1 (some timestamped_prompt)

/-- The database writes of `generate_video_background` on a successful
audio-enabled run with `sync_method ≠ "subtitle_overlay"`: step 2 (script),
step 3 (render), step 4 (audio), then the URL update and step 5 (done). -/
def generate_video_background_happy (db : Database) (db_uuid animation_id : String)
    (prompt video_url : String) : Database :=
  let db1 := add_step_status db db_uuid 2 "📝 开始生成脚本" (some prompt)
  let db2 := add_step_status db1 db_uuid 3 "🎬 开始生成动画" (some prompt)
  let db3 := add_step_status db2 db_uuid 4 "🎵 开始生成音频" (some prompt)
  let db4 := update_video_url db3 animation_id video_url
  add_step_status db4 db_uuid 5 "🎉 完成" (some prompt)

/-- One full request: synchronous part followed by the background pipeline. -/
def full_generation_run (db : Database) (db_uuid animation_id : String)
    (timestamped_prompt : String) (user_name : Option String)
    (video_url : String) : Database :=
  generate_video_background_happy
    (generate_request_sync db db_uuid animation_id timestamped_prompt user_name)
    db_uuid animation_id timestamped_prompt video_url

/-- The step numbers recorded for one VideoRecord, in creation order. -/
def steps_for (db : Database) (db_uuid : String) : List Nat :=
  (db.status.filter fun row => row.video_uuid == db_uuid).map fun row => row.step

/-! ## `services/video_processor.py` — `combine_audio_video`

The function's observable decision is which ffmpeg command it finally runs.
`extend_ok` models the exit status of the freeze-frame re-encode subprocess
attempted in the ratio > 1.1 branch. -/

inductive MuxPath
  | padAudio
  | extendFreeze
  | loopFallback
  | defaultShortest
deriving DecidableEq

def ffmpeg_path : String := "ffmpeg"

/-- `os.path.basename`. -/
def pyBasename (p : String) : String :=
  strOf ((p.toList.reverse.takeWhile (fun c => c ≠ '/')).reverse)

/-- Decimal rendering of a nonnegative rational that is exactly a Python
float with a finite short decimal expansion (e.g. `30` ↦ `"30.0"`), as
produced by `str()` inside the f-string filter expressions. -/
def pyFloatStr (q : ℚ) : String :=
  match (List.range 19).find? (fun k => (10 ^ k : ℤ) % (q.den : ℤ) = 0) with
  | some k =>
    if k = 0 then toString q.num ++ ".0"
    else
      let scaled : ℤ := q.num * (10 ^ k : ℤ) / (q.den : ℤ)
      let whole : ℤ := scaled / (10 ^ k : ℤ)
      let fracNat : Nat := (scaled % (10 ^ k : ℤ)).toNat
      let digits := Nat.toDigits 10 fracNat
      let padded := List.replicate (k - digits.length) '0' ++ digits
      let trimmed := padded.reverse.dropWhile (fun c => c = '0') |>.reverse
      toString whole ++ "." ++ strOf (if trimmed.isEmpty then ['0'] else trimmed)
  | none => toString q.num ++ "/" ++ toString q.den

def default_mux_cmd (video_path audio_path output_path : String) : List String :=
  [ffmpeg_path, "-i", video_path, "-i", audio_path, "-c:v", "copy", "-c:a", "aac",
   "-shortest", "-avoid_negative_ts", "make_zero", "-fflags", "+genpts", "-y",
   output_path]

def pad_audio_cmd (video_path audio_path output_path : String)
    (video_duration : ℚ) : List String :=
  [ffmpeg_path, "-i", video_path, "-i", audio_path,
   "-filter_complex", "[1:a]apad=whole_dur=" ++ pyFloatStr video_duration ++ "[audio]",
   "-map", "0:v", "-map", "[audio]", "-c:v", "copy", "-c:a", "aac",
   "-avoid_negative_ts", "make_zero", "-fflags", "+genpts", "-y", output_path]

def loop_fallback_cmd (video_path audio_path output_path : String) : List String :=
  [ffmpeg_path, "-stream_loop", "-1", "-i", video_path, "-i", audio_path,
   "-c:v", "copy", "-c:a", "aac", "-shortest", "-avoid_negative_ts", "make_zero",
   "-fflags", "+genpts", "-y", output_path]

def extended_video_path (video_path : String) : String :=
  "temp_output/" ++ pyBasename video_path ++ "_extended.mp4"

def combine_extended_cmd (video_path audio_path output_path : String) : List String :=
  [ffmpeg_path, "-i", extended_video_path video_path, "-i", audio_path,
   "-c:v", "copy", "-c:a", "aac", "-shortest", "-avoid_negative_ts", "make_zero",
   "-fflags", "+genpts", "-y", output_path]

/-- The remediation path and final mux command chosen by
`combine_audio_video` given the two probed durations.  Mirrors the source:
the default command is replaced only inside
`if video_duration and audio_duration:` (Python truthiness: `None` and `0`
both fail the test), where the ratio `audio_duration / video_duration`
selects the branch. -/
def combine_audio_video_plan (video_path audio_path output_path : String)
    (video_duration : Option ℚ) (audio_duration : ℚ) (extend_ok : Bool) :
    MuxPath × List String :=
  let dflt := (MuxPath.defaultShortest, default_mux_cmd video_path audio_path output_path)
  match video_duration with
  | none => dflt
  | some v =>
    if v ≠ 0 ∧ audio_duration ≠ 0 then
      if audio_duration / v < 7/10 then
        (MuxPath.padAudio, pad_audio_cmd video_path audio_path output_path v)
      else if 11/10 < audio_duration / v then
        if extend_ok then
          (MuxPath.extendFreeze, combine_extended_cmd video_path audio_path output_path)
        else
          (MuxPath.loopFallback, loop_fallback_cmd video_path audio_path output_path)
      else dflt
    else dflt

/-! ## `services/manim_optimizer.py` — `ManimOptimizer`

Each `re.sub` rule of the optimizer is embedded as a deterministic matcher
fed to `applySub`.  For every pattern the relevant backtracking is resolved
once and for all in the matcher (the comments justify determinism). -/

/-- First index at which `pat` occurs as a prefix of a suffix. -/
def idxOfSeq (pat : List Char) : List Char → Option Nat
  | [] => if pat.isEmpty then some 0 else none
  | c :: cs =>
    if pat.isPrefixOf (c :: cs) then some 0
    else (idxOfSeq pat cs).map (· + 1)

/-- Lowercase a character list (Python `.lower()` on ASCII). -/
def listLower (l : List Char) : List Char := l.map pyLowerChar

/-- Parse the text of a matched `\d+(\.\d+)?` group back to its value. -/
def parseNumTxt (l : List Char) : PyNum :=
  match scanNum l with
  | some (v, _) => v
  | none => ⟨0, 0⟩

/-- Matcher for `(\d+(?:\.\d+)?)\s*\*\s*LIT` with a clamp: if the literal's
value exceeds `ceiling` the match is replaced by `clampTxt ++ "*" ++ lit`
(Python's `f"{min(ceiling, v)}*LIT"`, where `min` is the ceiling whenever the
guard holds), otherwise by itself (`m.group(0)`). -/
def tryCoefFix (lit : List Char) (ceiling : PyNum) (clampTxt : List Char)
    (cs : List Char) : Option (Nat × List Char) :=
  match scanNum cs with
  | none => none
  | some (v, n1) =>
    let r1 := cs.drop n1
    let s1 := countWhile pyIsSpace r1
    match r1.drop s1 with
    | '*' :: r2 =>
      let s2 := countWhile pyIsSpace r2
      if lit.isPrefixOf (r2.drop s2) then
        let n := n1 + s1 + 1 + s2 + lit.length
        some (n, if PyNum.ltB ceiling v then clampTxt ++ '*' :: lit else cs.take n)
      else none
    | _ => none

/-- Matcher for `KW\s*=\s*(\d+(?:\.\d+)?)` with a clamp: replaced by the
constant `replTxt` when the value exceeds `threshold`, else by itself. -/
def tryKwNumFix (kw : List Char) (threshold : PyNum) (replTxt : List Char)
    (cs : List Char) : Option (Nat × List Char) :=
  if kw.isPrefixOf cs then
    let r1 := cs.drop kw.length
    let s1 := countWhile pyIsSpace r1
    match r1.drop s1 with
    | '=' :: r2 =>
      let s2 := countWhile pyIsSpace r2
      match scanNum (r2.drop s2) with
      | none => none
      | some (v, n3) =>
        let n := kw.length + s1 + 1 + s2 + n3
        some (n, if PyNum.ltB threshold v then replTxt else cs.take n)
    | _ => none
  else none

/-- `ManimOptimizer._fix_coordinate_bounds`: the six clamp rules, applied in
the dictionary's insertion order. -/
def fix_coordinate_bounds (script : String) : String :=
  let l1 := applySub (tryCoefFix "RIGHT".toList ⟨18, 1⟩ "1.8".toList) script.toList
  let l2 := applySub (tryCoefFix "UP".toList ⟨20, 1⟩ "2.0".toList) l1
  let l3 := applySub (tryCoefFix "DOWN".toList ⟨20, 1⟩ "2.0".toList) l2
  let l4 := applySub (tryCoefFix "LEFT".toList ⟨18, 1⟩ "1.8".toList) l3
  let l5 := applySub (tryKwNumFix "side_length".toList ⟨16, 1⟩ "side_length=1.6".toList) l4
  let l6 := applySub (tryKwNumFix "radius".toList ⟨13, 1⟩ "radius=1.3".toList) l5
  strOf l6

/-- Matcher for `Polygon\s*\(\s*ORIGIN\s*,\s*([^,]+)\s*,\s*([^)]+)\)`.
Both groups are delimited by the following `,` / `)` (the one-or-more
character classes exclude the delimiter, so greediness is determinate); the
groups are only used stripped, so absorbing the boundary whitespace into
them is observation-equivalent. -/
def tryTriangleCanon (cs : List Char) : Option (Nat × List Char) :=
  if "Polygon".toList.isPrefixOf cs then
    let r1 := cs.drop 7
    let s1 := countWhile pyIsSpace r1
    match r1.drop s1 with
    | '(' :: r2 =>
      let s2 := countWhile pyIsSpace r2
      let r3 := r2.drop s2
      if "ORIGIN".toList.isPrefixOf r3 then
        let r4 := r3.drop 6
        let s3 := countWhile pyIsSpace r4
        match r4.drop s3 with
        | ',' :: r5 =>
          let g1 := countWhile (fun c => c ≠ ',') r5
          if g1 = 0 then none
          else
            match r5.drop g1 with
            | ',' :: r6 =>
              let g2 := countWhile (fun c => c ≠ ')') r6
              if g2 = 0 then none
              else
                match r6.drop g2 with
                | ')' :: _ =>
                  let n := 7 + s1 + 1 + s2 + 6 + s3 + 1 + g1 + 1 + g2 + 1
                  let point1 := pyStripList (r5.take g1)
                  let point2 := pyStripList (r6.take g2)
                  some (n,
                    if listInfix "*RIGHT".toList point1 && listInfix "*UP".toList point2 then
                      "Polygon(ORIGIN, 1.0*RIGHT, 1.0*RIGHT + 1.2*UP)".toList
                    else cs.take n)
                | _ => none
            | _ => none
        | _ => none
      else none
    | _ => none
  else none

/-- Matcher for `NAME\s*\(\s*KW\s*=\s*\d+(?:\.\d+)?\s*\)` with a constant
replacement (the `Square`/`Circle` default-size rewrites). -/
def tryDefaultSize (name kw replTxt : List Char) (cs : List Char) :
    Option (Nat × List Char) :=
  if name.isPrefixOf cs then
    let r1 := cs.drop name.length
    let s1 := countWhile pyIsSpace r1
    match r1.drop s1 with
    | '(' :: r2 =>
      let s2 := countWhile pyIsSpace r2
      if kw.isPrefixOf (r2.drop s2) then
        let r3 := (r2.drop s2).drop kw.length
        let s3 := countWhile pyIsSpace r3
        match r3.drop s3 with
        | '=' :: r4 =>
          let s4 := countWhile pyIsSpace r4
          match scanNum (r4.drop s4) with
          | none => none
          | some (_, d) =>
            let r5 := (r4.drop s4).drop d
            let s5 := countWhile pyIsSpace r5
            match r5.drop s5 with
            | ')' :: _ =>
              some (name.length + s1 + 1 + s2 + kw.length + s3 + 1 + s4 + d + s5 + 1,
                    replTxt)
            | _ => none
        | _ => none
      else none
    | _ => none
  else none

/-- `ManimOptimizer._optimize_geometry_sizes`. -/
def optimize_geometry_sizes (l : List Char) : List Char :=
  let l1 := applySub tryTriangleCanon l
  let l2 := applySub
    (tryDefaultSize "Square".toList "side_length".toList "Square(side_length=1.4)".toList) l1
  applySub
    (tryDefaultSize "Circle".toList "radius".toList "Circle(radius=1.1)".toList) l2

/-- Matcher for `\.arrange\s*\(\s*DIR\s*\)` with its constant replacement. -/
def tryArrangeBuff (dir : List Char) (cs : List Char) : Option (Nat × List Char) :=
  if ".arrange".toList.isPrefixOf cs then
    let r1 := cs.drop 8
    let s1 := countWhile pyIsSpace r1
    match r1.drop s1 with
    | '(' :: r2 =>
      let s2 := countWhile pyIsSpace r2
      if dir.isPrefixOf (r2.drop s2) then
        let r3 := (r2.drop s2).drop dir.length
        let s3 := countWhile pyIsSpace r3
        match r3.drop s3 with
        | ')' :: _ =>
          some (8 + s1 + 1 + s2 + dir.length + s3 + 1,
                ".arrange(".toList ++ dir ++ ", buff=0.4)".toList)
        | _ => none
      else none
    | _ => none
  else none

/-- Index of the last occurrence of `c`. -/
def lastIdxOf (c : Char) (l : List Char) : Option Nat :=
  match l.reverse.findIdx? (fun x => x = c) with
  | some j => some (l.length - 1 - j)
  | none => none

/-- Matcher for `\.next_to\s*\([^,]+,\s*[^,]+\s*\)`.  The second chunk ends
at the **last** `)` inside the comma-free region after the comma (greedy
`[^,]+` backtracking), and at least one character must precede that `)`.
The replacement applies Python's `m.group(0).replace(")", ", buff=0.3)")`,
i.e. it rewrites every `)` inside the matched text. -/
def tryNextToBuff (cs : List Char) : Option (Nat × List Char) :=
  if ".next_to".toList.isPrefixOf cs then
    let r1 := cs.drop 8
    let s1 := countWhile pyIsSpace r1
    match r1.drop s1 with
    | '(' :: r2 =>
      let g1 := countWhile (fun c => c ≠ ',') r2
      if g1 = 0 then none
      else
        match r2.drop g1 with
        | ',' :: r3 =>
          let creg := r3.take (countWhile (fun c => c ≠ ',') r3)
          match lastIdxOf ')' creg with
          | none => none
          | some k =>
            if k = 0 then none
            else
              let n := 8 + s1 + 1 + g1 + 1 + k + 1
              some (n, pyReplace (cs.take n) ")".toList ", buff=0.3)".toList)
        | _ => none
    | _ => none
  else none

/-- `ManimOptimizer._enhance_spacing_control`. -/
def enhance_spacing_control (l : List Char) : List Char :=
  let l1 := applySub (tryArrangeBuff "DOWN".toList) l
  let l2 := applySub (tryArrangeBuff "RIGHT".toList) l1
  let l3 := applySub (tryArrangeBuff "UP".toList) l2
  let l4 := applySub (tryArrangeBuff "LEFT".toList) l3
  applySub tryNextToBuff l4

/-- Matcher used by the optimizer's `re.search` for
`(Polygon|Square|Circle|Rectangle)\s*\([^)]*\)`. -/
def tryGeometrySearch (cs : List Char) : Option (Nat × List Char) :=
  match ["Polygon", "Square", "Circle", "Rectangle"].find?
      (fun w => w.toList.isPrefixOf cs) with
  | none => none
  | some w =>
    let r1 := cs.drop w.length
    let s1 := countWhile pyIsSpace r1
    match r1.drop s1 with
    | '(' :: r2 =>
      let inner := countWhile (fun c => c ≠ ')') r2
      match r2.drop inner with
      | ')' :: _ => some (w.length + s1 + 1 + inner + 1, [])
      | _ => none
    | _ => none

/-- The `positioning_code` string injected by
`ManimOptimizer._add_precise_positioning` (verbatim). -/
def positioning_code : String :=
  "\n        \n        # 自动图形分组和定位优化\n        all_graphics = []\n        for obj_name in dir():\n            obj = locals().get(obj_name)\n            if hasattr(obj, 'get_center') and obj_name not in ['title', 'text1', 'text2', 'text3', 'text4', 'text5']:\n                all_graphics.append(obj)\n        \n        if all_graphics:\n            graphics_group = VGroup(*all_graphics)\n            graphics_group.arrange(DOWN, buff=0.4)\n            graphics_group.move_to(RIGHT*3)\n            graphics_group.scale(1.0)  # 从0.7改为1.0，不缩小\n        \n        "

/-- `re.sub(r'(def construct\(self\):.*?)(self\.play)', ..., flags=DOTALL)`:
every match starts at a literal `def construct(self):` and its non-greedy
body ends at the first following `self.play`; scanning resumes after the
consumed `self.play`. -/
def constructSubF : Nat → List Char → List Char
  | _, [] => []
  | 0, l => l
  | fuel + 1, c :: cs =>
    match idxOfSeq "def construct(self):".toList (c :: cs) with
    | none => c :: cs
    | some i =>
      match idxOfSeq "self.play".toList ((c :: cs).drop (i + 20)) with
      | none => c :: cs
      | some j =>
        (c :: cs).take i ++ "def construct(self):".toList
          ++ ((c :: cs).drop (i + 20)).take j
          ++ positioning_code.toList ++ "self.play".toList
          ++ constructSubF fuel (((c :: cs).drop (i + 20)).drop (j + 9))

def constructSub (l : List Char) : List Char := constructSubF l.length l

/-- `ManimOptimizer._add_precise_positioning`. -/
def add_precise_positioning (l : List Char) : List Char :=
  if anyMatch tryGeometrySearch l then
    if !(listInfix "move_to(RIGHT*3)".toList l) then constructSub l else l
  else l

/-- CJK character class `[一-鿿]` used by the math-rendering rule. -/
def isCJK (c : Char) : Bool := 0x4e00 ≤ c.toNat && c.toNat ≤ 0x9fff

/-- Matcher for `MathTex\s*\(\s*["\']([^"\']*[一-鿿][^"\']*)["\']`:
after an opening quote (either kind) the group is the maximal quote-free run,
which must contain a CJK character; the match ends at the next quote (either
kind).  Replacement: `f'Text("{g}", font_size=20)'`. -/
def tryMathTexCJK (cs : List Char) : Option (Nat × List Char) :=
  if "MathTex".toList.isPrefixOf cs then
    let r1 := cs.drop 7
    let s1 := countWhile pyIsSpace r1
    match r1.drop s1 with
    | '(' :: r2 =>
      let s2 := countWhile pyIsSpace r2
      match r2.drop s2 with
      | q :: r3 =>
        if q = '"' || q = '\'' then
          let run := countWhile (fun c => c ≠ '"' && c ≠ '\'') r3
          if (r3.take run).any isCJK then
            match r3.drop run with
            | q2 :: _ =>
              if q2 = '"' || q2 = '\'' then
                some (7 + s1 + 1 + s2 + 1 + run + 1,
                      "Text(\"".toList ++ r3.take run ++ "\", font_size=20)".toList)
              else none
            | _ => none
          else none
        else none
      | _ => none
    | _ => none
  else none

/-- Matcher for `MathTex\s*\(\s*([^)]+)\s*\)(?!\s*,\s*font_size)`.  The
group is the paren-free region after the greedy leading `\s*` (falling back
to the final whitespace character when the region is all whitespace, per
backtracking); the negative lookahead inspects the text after the `)`. -/
def tryMathTexFontSize (cs : List Char) : Option (Nat × List Char) :=
  if "MathTex".toList.isPrefixOf cs then
    let r1 := cs.drop 7
    let s1 := countWhile pyIsSpace r1
    match r1.drop s1 with
    | '(' :: r2 =>
      let span := countWhile (fun c => c ≠ ')') r2
      if span = 0 then none
      else
        match r2.drop span with
        | ')' :: rest =>
          let s2 := countWhile pyIsSpace (r2.take span)
          let grp := (r2.take span).drop (min s2 (span - 1))
          let s3 := countWhile pyIsSpace rest
          let lookahead :=
            match rest.drop s3 with
            | ',' :: r4 =>
              let s4 := countWhile pyIsSpace r4
              "font_size".toList.isPrefixOf (r4.drop s4)
            | _ => false
          if lookahead then none
          else
            some (7 + s1 + 1 + span + 1,
                  "MathTex(".toList ++ grp ++ ", font_size=24)".toList)
        | _ => none
    | _ => none
  else none

/-- `ManimOptimizer._optimize_math_rendering`. -/
def optimize_math_rendering (l : List Char) : List Char :=
  applySub tryMathTexFontSize (applySub tryMathTexCJK l)

/-- The `validation_code` string injected by
`ManimOptimizer._add_boundary_validation` (verbatim). -/
def validation_code : String :=
  "\n        \n        # 边界验证和自动调整\n        def validate_and_adjust_positions(scene_objects):\n            for obj in scene_objects:\n                if hasattr(obj, 'get_center'):\n                    center = obj.get_center()\n                    # 检查是否超出安全边界\n                    if center[0] > 5.5:  # 右边界\n                        obj.shift(LEFT * (center[0] - 5.0))\n                    elif center[0] < -5.5:  # 左边界\n                        obj.shift(RIGHT * (-5.0 - center[0]))\n                    \n                    if center[1] > 3.5:  # 上边界\n                        obj.shift(DOWN * (center[1] - 3.0))\n                    elif center[1] < -3.5:  # 下边界\n                        obj.shift(UP * (-3.0 - center[1]))\n        \n        # 在动画开始前验证所有对象的位置\n        all_scene_objects = [obj for obj in locals().values() if hasattr(obj, 'get_center')]\n        validate_and_adjust_positions(all_scene_objects)\n        "

/-- Position of the first `self.play` immediately preceded by whitespace. -/
def findWSPlayAux : List Char → Nat → Option Nat
  | [], _ => none
  | c :: cs, i =>
    if pyIsSpace c && "self.play".toList.isPrefixOf cs then some (i + 1)
    else findWSPlayAux cs (i + 1)

/-- `ManimOptimizer._add_boundary_validation`:
`re.sub(r'(\s+)(self\.play)', r'\1' + validation_code + '\n\1\2', ..., count=1)`
— the first `self.play` preceded by whitespace, with the full whitespace run
as group 1. -/
def add_boundary_validation (l : List Char) : List Char :=
  match findWSPlayAux l 0 with
  | none => l
  | some j =>
    let w := countWhile pyIsSpace (l.take j).reverse
    l.take (j - w) ++ (l.take j).drop (j - w) ++ validation_code.toList
      ++ '\n' :: ((l.take j).drop (j - w)) ++ "self.play".toList ++ l.drop (j + 9)

/-- `ManimOptimizer.optimize_script`: the six passes in order. -/
def optimize_script (script : String) : String :=
  let l1 := (fix_coordinate_bounds script).toList
  let l2 := optimize_geometry_sizes l1
  let l3 := enhance_spacing_control l2
  let l4 := add_precise_positioning l3
  let l5 := optimize_math_rendering l4
  strOf (add_boundary_validation l5)

/-! ## `services/script_generator.py`

### The static layout linter inside `test_manim_script`

The syntax / import / Scene-class probes of `test_manim_script` execute the
candidate script dynamically and are outside a shallow embedding; the static
layout check (the `potential_issues` block, which is pure text analysis over
`script.lower()`) is embedded below.  The check "passes" iff the issue list
is empty. -/

/-- `findall` matcher for `(\d+(?:\.\d+)?)\s*\*\s*(?:right|up|down|left)`
over the lowercased script; yields the numeric group. -/
def tryCoordLit (cs : List Char) : Option (Nat × List Char) :=
  match scanNum cs with
  | none => none
  | some (_, n1) =>
    let r1 := cs.drop n1
    let s1 := countWhile pyIsSpace r1
    match r1.drop s1 with
    | '*' :: r2 =>
      let s2 := countWhile pyIsSpace r2
      match ["right", "up", "down", "left"].find?
          (fun w => w.toList.isPrefixOf (r2.drop s2)) with
      | some w => some (n1 + s1 + 1 + s2 + w.length, cs.take n1)
      | none => none
    | _ => none

/-- `findall` matcher for `side_length\s*=\s*(\d+(?:\.\d+)?)`; yields the
numeric group. -/
def trySideLit (cs : List Char) : Option (Nat × List Char) :=
  if "side_length".toList.isPrefixOf cs then
    let r1 := cs.drop 11
    let s1 := countWhile pyIsSpace r1
    match r1.drop s1 with
    | '=' :: r2 =>
      let s2 := countWhile pyIsSpace r2
      match scanNum (r2.drop s2) with
      | none => none
      | some (_, d) => some (11 + s1 + 1 + s2 + d, (r2.drop s2).take d)
    | _ => none
  else none

/-- The layout-issue list computed by `test_manim_script` (its static part). -/
def test_manim_script_layout_issues (script : String) : List String :=
  let content := pyLower script
  let cl := content.toList
  let coordIssues := (collectMatches tryCoordLit cl).filterMap fun t =>
    if PyNum.ltB ⟨15, 1⟩ (parseNumTxt t) then
      some ("Large coordinate found: " ++ strOf t ++ " (must be ≤1.2 for right zone)")
    else none
  let sideIssues := (collectMatches trySideLit cl).filterMap fun t =>
    if PyNum.ltB ⟨15, 1⟩ (parseNumTxt t) then
      some ("Large side_length found: " ++ strOf t ++ " (must be ≤1.2)")
    else none
  let has_title := pyContains content "title.to_edge(up"
  let has_left_text := pyContains content "to_corner(ul" || pyContains content "left"
  let has_right_graphics :=
    pyContains content "move_to(right*3)" || pyContains content "right*3"
  let has_geometry :=
    ["polygon", "square", "rectangle", "circle"].any fun g => pyContains content g
  coordIssues ++ sideIssues
    ++ (if !has_title && pyContains content "title" then
          ["Title not positioned at top (must use title.to_edge(UP, buff=0.5))"]
        else [])
    ++ (if has_geometry && !has_right_graphics then
          ["Graphics not positioned in right zone (must use .move_to(RIGHT*3))"]
        else [])
    ++ (if pyContains content "text" && !has_left_text && !(pyContains content "title") then
          ["Text not positioned in left zone (must use .to_corner(UL, buff=0.8))"]
        else [])
    ++ (if has_geometry && pyContains content "move_to(origin)" then
          ["Graphics positioned at center - must move to right zone"]
        else [])

/-- Whether the static layout check passes. -/
def layout_check_passes (script : String) : Bool :=
  (test_manim_script_layout_issues script).isEmpty

/-! ### `auto_fix_riemann_rectangles_opacity`

Pattern (MULTILINE | DOTALL):
`(.*?axes\.get_riemann_rectangles\([^)]*?),\s*opacity\s*=\s*([\d.]+)([^)]*?\))`.
The non-greedy leading `.*?` means a match, when one exists, starts at the
scan position; the first literal occurrence whose paren-free tail reaches a
`,\s*opacity\s*=\s*` continuation wins, with the minimal such tail. -/

/-- Match `,\s*opacity\s*=\s*([\d.]+)([^)]*?\))` at the head; returns
(consumed, opacity value text, group-3 text including its `)`). -/
def tryOpacityAt (cs : List Char) : Option (Nat × List Char × List Char) :=
  match cs with
  | ',' :: r1 =>
    let s1 := countWhile pyIsSpace r1
    if "opacity".toList.isPrefixOf (r1.drop s1) then
      let r2 := (r1.drop s1).drop 7
      let s2 := countWhile pyIsSpace r2
      match r2.drop s2 with
      | '=' :: r3 =>
        let s3 := countWhile pyIsSpace r3
        let r4 := r3.drop s3
        let d := countWhile (fun c => pyIsDigit c || c = '.') r4
        if d = 0 then none
        else
          let r5 := r4.drop d
          let e := countWhile (fun c => c ≠ ')') r5
          match r5.drop e with
          | ')' :: _ =>
            some (1 + s1 + 7 + s2 + 1 + s3 + d + e + 1, r4.take d, r5.take e ++ [')'])
          | _ => none
      | _ => none
    else none
  | _ => none

/-- Scan the paren-free region after the literal for the minimal offset `k`
at which the opacity continuation matches; returns `(k, consumed, g2, g3)`. -/
def riemannKScan : List Char → Option (Nat × Nat × List Char × List Char)
  | [] => none
  | c :: cs' =>
    match tryOpacityAt (c :: cs') with
    | some (n, g2, g3) => some (0, n, g2, g3)
    | none =>
      if c = ')' then none
      else
        match riemannKScan cs' with
        | some (k, n, g2, g3) => some (k + 1, n, g2, g3)
        | none => none

/-- Find the first full match: iterate over occurrences of the literal. -/
def riemannMatchAux : Nat → List Char → Nat → Option (Nat × List Char)
  | 0, _, _ => none
  | fuel + 1, l, pos =>
    match idxOfSeq "axes.get_riemann_rectangles(".toList (l.drop pos) with
    | none => none
    | some i =>
      let q := pos + i
      match riemannKScan (l.drop (q + 28)) with
      | some (k, n, g2, g3) =>
        let g1 := l.take (q + 28 + k)
        some (q + 28 + k + n,
              g1 ++ g3 ++ "\n        rectangles.set_fill(opacity=".toList ++ g2 ++ [')'])
      | none => riemannMatchAux fuel l (q + 1)

/-- `re.sub` over the whole input (scan resumes after each match). -/
def riemannSubAllF : Nat → List Char → List Char
  | _, [] => []
  | 0, l => l
  | fuel + 1, c :: cs =>
    match riemannMatchAux (cs.length + 2) (c :: cs) 0 with
    | none => c :: cs
    | some (n, repl) =>
      if n = 0 then c :: cs
      else repl ++ riemannSubAllF fuel ((c :: cs).drop n)

def riemannSubAll (l : List Char) : List Char := riemannSubAllF l.length l

/-- Matcher for the follow-up rename
`(\w+)\s*=\s*(axes\.get_riemann_rectangles\([^)]+\))\n\s+rectangles\.set_fill`
with replacement `\1 = \2\n        \1.set_fill`. -/
def tryRiemannRename (cs : List Char) : Option (Nat × List Char) :=
  let w := countWhile pyIsWord cs
  if w = 0 then none
  else
    let r1 := cs.drop w
    let s1 := countWhile pyIsSpace r1
    match r1.drop s1 with
    | '=' :: r2 =>
      let s2 := countWhile pyIsSpace r2
      if "axes.get_riemann_rectangles(".toList.isPrefixOf (r2.drop s2) then
        let r3 := (r2.drop s2).drop 28
        let inner := countWhile (fun c => c ≠ ')') r3
        if inner = 0 then none
        else
          match r3.drop inner with
          | ')' :: r4 =>
            match r4 with
            | '\n' :: r5 =>
              let ws := countWhile pyIsSpace r5
              if ws = 0 then none
              else if "rectangles.set_fill".toList.isPrefixOf (r5.drop ws) then
                let g1 := cs.take w
                let g2 := "axes.get_riemann_rectangles(".toList ++ r3.take inner ++ [')']
                some (w + s1 + 1 + s2 + 28 + inner + 1 + 1 + ws + 19,
                      g1 ++ " = ".toList ++ g2 ++ "\n        ".toList ++ g1
                        ++ ".set_fill".toList)
              else none
            | _ => none
          | _ => none
      else none
    | _ => none

/-- `auto_fix_riemann_rectangles_opacity` from `services/script_generator.py`. -/
def auto_fix_riemann_rectangles_opacity (script : String) : String :=
  let l := script.toList
  let fixed := riemannSubAll l
  if fixed ≠ l then strOf (applySub tryRiemannRename fixed) else strOf fixed

/-! ### `auto_fix_large_coordinates` -/

/-- Matcher for
`(\.get_vertices\(\)\[\d+\])\s*\+\s*([\d.]+)\s*\*\s*\(([^)]+)\)` with
replacement `\1 + \2 * np.array([\3])`. -/
def tryVertexFix (cs : List Char) : Option (Nat × List Char) :=
  if ".get_vertices()[".toList.isPrefixOf cs then
    let r1 := cs.drop 16
    let d := countWhile pyIsDigit r1
    if d = 0 then none
    else
      match r1.drop d with
      | ']' :: r2 =>
        let g1 := cs.take (16 + d + 1)
        let s1 := countWhile pyIsSpace r2
        match r2.drop s1 with
        | '+' :: r3 =>
          let s2 := countWhile pyIsSpace r3
          let r4 := r3.drop s2
          let nd := countWhile (fun c => pyIsDigit c || c = '.') r4
          if nd = 0 then none
          else
            let r5 := r4.drop nd
            let s3 := countWhile pyIsSpace r5
            match r5.drop s3 with
            | '*' :: r6 =>
              let s4 := countWhile pyIsSpace r6
              match r6.drop s4 with
              | '(' :: r7 =>
                let inner := countWhile (fun c => c ≠ ')') r7
                if inner = 0 then none
                else
                  match r7.drop inner with
                  | ')' :: _ =>
                    some (16 + d + 1 + s1 + 1 + s2 + nd + s3 + 1 + s4 + 1 + inner + 1,
                          g1 ++ " + ".toList ++ r4.take nd ++ " * np.array([".toList
                            ++ r7.take inner ++ "])".toList)
                  | _ => none
              | _ => none
            | _ => none
        | _ => none
      | _ => none
  else none

/-- Matcher for `(\d+)\*LIT` (no whitespace, integer-only group) with the
auto-fixer's clamp: values above 1.5 are replaced by `clampTxt ++ "*" ++ lit`
(`f"{min(ceiling, int(g))}*LIT"`, constant under the guard). -/
def tryIntCoefFix (lit clampTxt : List Char) (cs : List Char) :
    Option (Nat × List Char) :=
  let d := countWhile pyIsDigit cs
  if d = 0 then none
  else
    match cs.drop d with
    | '*' :: r2 =>
      if lit.isPrefixOf r2 then
        let n := d + 1 + lit.length
        let v : PyNum := ⟨natOfDigits (cs.take d) 0, 0⟩
        some (n, if PyNum.ltB ⟨15, 1⟩ v then clampTxt ++ '*' :: lit else cs.take n)
      else none
    | _ => none

/-- Matcher for `((?:Polygon|Square|Rectangle|Circle)\([^)]+\))` with
replacement `\1.move_to(RIGHT*3).scale(0.7)`. -/
def tryGeomCall (cs : List Char) : Option (Nat × List Char) :=
  match ["Polygon(", "Square(", "Rectangle(", "Circle("].find?
      (fun w => w.toList.isPrefixOf cs) with
  | none => none
  | some w =>
    let r1 := cs.drop w.length
    let inner := countWhile (fun c => c ≠ ')') r1
    if inner = 0 then none
    else
      match r1.drop inner with
      | ')' :: _ =>
        let n := w.length + inner + 1
        some (n, cs.take n ++ ".move_to(RIGHT*3).scale(0.7)".toList)
      | _ => none

/-- Matcher for `(VGroup\([^)]+\))` with the same replacement. -/
def tryVGroupCall (cs : List Char) : Option (Nat × List Char) :=
  if "VGroup(".toList.isPrefixOf cs then
    let r1 := cs.drop 7
    let inner := countWhile (fun c => c ≠ ')') r1
    if inner = 0 then none
    else
      match r1.drop inner with
      | ')' :: _ =>
        let n := 7 + inner + 1
        some (n, cs.take n ++ ".move_to(RIGHT*3).scale(0.7)".toList)
      | _ => none
  else none

/-- The auto-fixer's right-zone anchor injection (first matching pattern,
first occurrence only). -/
def geomPositionFix (l : List Char) : List Char :=
  if listInfix "Polygon(".toList l || listInfix "Square(".toList l
      || listInfix "Circle(".toList l then
    if !(listInfix ".move_to(RIGHT*3)".toList l) then
      if anyMatch tryGeomCall l then applySubOnce tryGeomCall l
      else if anyMatch tryVGroupCall l then applySubOnce tryVGroupCall l
      else l
    else l
  else l

/-- Matcher for `(title\s*=\s*Text\([^)]+\))` with replacement
`\1\n        title.to_edge(UP, buff=0.5)`. -/
def tryTitleText (cs : List Char) : Option (Nat × List Char) :=
  if "title".toList.isPrefixOf cs then
    let r1 := cs.drop 5
    let s1 := countWhile pyIsSpace r1
    match r1.drop s1 with
    | '=' :: r2 =>
      let s2 := countWhile pyIsSpace r2
      if "Text(".toList.isPrefixOf (r2.drop s2) then
        let r3 := (r2.drop s2).drop 5
        let inner := countWhile (fun c => c ≠ ')') r3
        if inner = 0 then none
        else
          match r3.drop inner with
          | ')' :: _ =>
            let n := 5 + s1 + 1 + s2 + 5 + inner + 1
            some (n, cs.take n ++ "\n        title.to_edge(UP, buff=0.5)".toList)
          | _ => none
      else none
    | _ => none
  else none

/-- The auto-fixer's title anchoring pass. -/
def titleFix (l : List Char) : List Char :=
  if !(listInfix "title.to_edge(UP".toList l) && listInfix "Text(".toList l then
    applySub tryTitleText l
  else l

/-- Matcher for `(\w+\s*=\s*Text\()([^)]+)(\))(?!\s*\.\s*to_edge)` with
replacement `\1\2, font_size=20\3.to_corner(UL, buff=0.8).shift(DOWN*0.5)`. -/
def tryTextCorner (cs : List Char) : Option (Nat × List Char) :=
  let w := countWhile pyIsWord cs
  if w = 0 then none
  else
    let r1 := cs.drop w
    let s1 := countWhile pyIsSpace r1
    match r1.drop s1 with
    | '=' :: r2 =>
      let s2 := countWhile pyIsSpace r2
      if "Text(".toList.isPrefixOf (r2.drop s2) then
        let r3 := (r2.drop s2).drop 5
        let inner := countWhile (fun c => c ≠ ')') r3
        if inner = 0 then none
        else
          match r3.drop inner with
          | ')' :: rest =>
            let s3 := countWhile pyIsSpace rest
            let lookahead :=
              match rest.drop s3 with
              | '.' :: r4 =>
                let s4 := countWhile pyIsSpace r4
                "to_edge".toList.isPrefixOf (r4.drop s4)
              | _ => false
            if lookahead then none
            else
              let n := w + s1 + 1 + s2 + 5 + inner + 1
              some (n, cs.take (w + s1 + 1 + s2 + 5) ++ r3.take inner
                    ++ ", font_size=20)".toList
                    ++ ".to_corner(UL, buff=0.8).shift(DOWN*0.5)".toList)
          | _ => none
      else none
    | _ => none

/-- The auto-fixer's left-zone anchoring pass (first occurrence only). -/
def textCornerFix (l : List Char) : List Char :=
  if !(listInfix "to_corner(UL".toList l) && listInfix "Text(".toList l
      && !(listInfix "title".toList (listLower l)) then
    applySubOnce tryTextCorner l
  else l

/-- Matcher for `Text\(([^)]+)\)(?!.*font_size)` (no DOTALL: the lookahead
scans only the rest of the current line). -/
def tryTextFontSize (cs : List Char) : Option (Nat × List Char) :=
  if "Text(".toList.isPrefixOf cs then
    let r1 := cs.drop 5
    let inner := countWhile (fun c => c ≠ ')') r1
    if inner = 0 then none
    else
      match r1.drop inner with
      | ')' :: rest =>
        let restLine := rest.takeWhile (fun c => c ≠ '\n')
        if listInfix "font_size".toList restLine then none
        else
          let n := 5 + inner + 1
          some (n, "Text(".toList ++ r1.take inner ++ ", font_size=18)".toList)
      | _ => none
  else none

/-- The auto-fixer's default font-size injection. -/
def fontSizeFix (l : List Char) : List Char :=
  if !(listInfix "font_size=".toList l) && listInfix "Text(".toList l then
    applySub tryTextFontSize l
  else l

/-- Matcher for `(VGroup\([^)]+\))(\s*\.move_to\(RIGHT\*3\))` with
replacement `\1.arrange(DOWN, buff=0.3)\2`. -/
def tryVGroupArrange (cs : List Char) : Option (Nat × List Char) :=
  if "VGroup(".toList.isPrefixOf cs then
    let r1 := cs.drop 7
    let inner := countWhile (fun c => c ≠ ')') r1
    if inner = 0 then none
    else
      match r1.drop inner with
      | ')' :: r2 =>
        let s := countWhile pyIsSpace r2
        if ".move_to(RIGHT*3)".toList.isPrefixOf (r2.drop s) then
          let n1 := 7 + inner + 1
          let n := n1 + s + 17
          some (n, cs.take n1 ++ ".arrange(DOWN, buff=0.3)".toList
                ++ (cs.drop n1).take (s + 17))
        else none
      | _ => none
  else none

/-- The auto-fixer's arrange injection for grouped shapes. -/
def arrangeFix (l : List Char) : List Char :=
  if (listInfix "Polygon(".toList l || listInfix "Square(".toList l
      || listInfix "Circle(".toList l)
      && listInfix "VGroup(".toList l && !(listInfix ".arrange(".toList l) then
    applySub tryVGroupArrange l
  else l

/-- `auto_fix_large_coordinates` from `services/script_generator.py`:
riemann-opacity repair, vertex-arithmetic coercion, the integer-keyed
coordinate clamps (dictionary order: RIGHT, UP, DOWN, LEFT, side_length),
then the four layout-injection passes. -/
def auto_fix_large_coordinates (script : String) : String :=
  let s1 := auto_fix_riemann_rectangles_opacity script
  let l1 := applySub tryVertexFix s1.toList
  let l2 := applySub (tryIntCoefFix "RIGHT".toList "1".toList) l1
  let l3 := applySub (tryIntCoefFix "UP".toList "1.2".toList) l2
  let l4 := applySub (tryIntCoefFix "DOWN".toList "1.2".toList) l3
  let l5 := applySub (tryIntCoefFix "LEFT".toList "1".toList) l4
  let l6 := applySub (tryKwNumFix "side_length".toList ⟨15, 1⟩ "side_length=1.2".toList) l5
  let l7 := geomPositionFix l6
  let l8 := titleFix l7
  let l9 := textCornerFix l8
  let l10 := fontSizeFix l9
  strOf (arrangeFix l10)

/-! ## Concrete example inputs used by the theorems -/

/-- The spec's round-trip script: a `Polygon(ORIGIN, 4*RIGHT, 8*UP)` scene
with no right-zone anchor. -/
def roundtrip_example_script : String :=
  "from manim import *\n\nclass MainScene(Scene):\n    def construct(self):\n        triangle = Polygon(ORIGIN, 4*RIGHT, 8*UP)\n        self.play(Create(triangle))\n"

/-- A syntactically valid Python script on which the coordinate-fix pass is
not idempotent: the UP clamp leaves the fragment `2.` in front of its
replacement, the side-length clamp then leaves `.0*UP` behind `1.6`, and the
second pass reparses `6.0*UP` as a fresh oversized coefficient. -/
def idem_counterexample_script : String := "print(\"side_length=2.5.7*UP\")"

def demo_env : String → Option String := fun k =>
  if k = "SUPABASE_URL" then some "https://example.supabase.co"
  else if k = "SUPABASE_SERVICE_ROLE_KEY" then some "service-role-key"
  else none

def demo_cfg : SupabaseConfig :=
  { url := "https://example.supabase.co", service_role_key := "service-role-key",
    storage_bucket := "video-generations" }

/-- Fresh module state at process start. -/
def supabase_module_initial : SupabaseModule :=
  { supabase_config := none, clients_created := 0 }

/-- State after the configuration has been created lazily (no client yet). -/
def demo_state1 : SupabaseModule :=
  { supabase_config := some demo_cfg, clients_created := 0 }

def bypass_env : String → Option String := fun k =>
  if k = "BYPASS_AUTH" then some "true" else none

/-! ## Auxiliary lemmas for the coordinate-clamp rewriting passes -/

theorem countWhile_append_cons {p : Char → Bool} {A : List Char} {c : Char} {r : List Char}
    (hA : ∀ a ∈ A, p a = true) (hc : p c = false) :
    countWhile p (A ++ c :: r) = A.length := by
  induction A with
  | nil => simp [countWhile, hc]
  | cons a as ih =>
    have ha : p a = true := hA a (by simp)
    have ih' := ih (fun x hx => hA x (by simp [hx]))
    simp [countWhile, ha, ih']

theorem natOfDigits_acc (l : List Char) :
    ∀ acc, natOfDigits l acc = acc * 10 ^ l.length + natOfDigits l 0 := by
  induction l with
  | nil => intro acc; simp [natOfDigits]
  | cons c cs ih =>
    intro acc
    simp only [natOfDigits, List.length_cons]
    rw [ih (acc * 10 + (c.toNat - '0'.toNat)), ih (0 * 10 + (c.toNat - '0'.toNat))]
    ring

theorem natOfDigits_append (A B : List Char) (acc : Nat) :
    natOfDigits (A ++ B) acc = natOfDigits B (natOfDigits A acc) := by
  induction A generalizing acc with
  | nil => simp [natOfDigits]
  | cons a as ih => simp [natOfDigits, ih]

theorem natOfDigits_drop_le (l : List Char) (j : Nat) :
    natOfDigits (l.drop j) 0 ≤ natOfDigits l 0 := by
  conv_rhs => rw [← List.take_append_drop j l]
  rw [natOfDigits_append, natOfDigits_acc (l.drop j) (natOfDigits (l.take j) 0)]
  exact Nat.le_add_left _ _

theorem applySubF_none {tryM : List Char → Option (Nat × List Char)} :
    ∀ (fuel : Nat) (l : List Char), l.length ≤ fuel →
      (∀ j, j < l.length → tryM (l.drop j) = none) →
      applySubF tryM fuel l = l := by
  intro fuel
  induction fuel with
  | zero =>
    intro l hl _
    cases l with
    | nil => rfl
    | cons c cs => simp at hl
  | succ f ih =>
    intro l hl hj
    cases l with
    | nil => rfl
    | cons c cs =>
      have h0 : tryM (c :: cs) = none := by simpa using hj 0 (by simp)
      have htail : applySubF tryM f cs = cs :=
        ih cs (by simpa using Nat.le_of_succ_le_succ hl)
          (fun j hjl => by simpa using hj (j + 1) (by simpa using Nat.succ_lt_succ hjl))
      simp only [applySubF, h0, htail]

theorem applySubF_id {tryM : List Char → Option (Nat × List Char)} :
    ∀ (fuel : Nat) (l : List Char), l.length ≤ fuel →
      (∀ j, j < l.length → ∀ n r, tryM (l.drop j) = some (n, r) → r = (l.drop j).take n) →
      applySubF tryM fuel l = l := by
  intro fuel
  induction fuel with
  | zero =>
    intro l hl _
    cases l with
    | nil => rfl
    | cons c cs => simp at hl
  | succ f ih =>
    intro l hl hj
    cases l with
    | nil => rfl
    | cons c cs =>
      have htail : applySubF tryM f cs = cs :=
        ih cs (by simpa using Nat.le_of_succ_le_succ hl)
          (fun j hjl n r hm => by
            have := hj (j + 1) (by simpa using Nat.succ_lt_succ hjl) n r (by simpa using hm)
            simpa using this)
      cases h0 : tryM (c :: cs) with
      | none => simp only [applySubF, h0, htail]
      | some p =>
        obtain ⟨n, r⟩ := p
        have hr : r = (c :: cs).take n := by
          simpa using hj 0 (by simp) n r (by simpa using h0)
        by_cases hn : n = 0
        · subst hn
          simp only [applySubF, h0, if_pos, htail]
        · simp only [applySubF, h0, if_neg hn]
          rw [hr]
          have hrec : applySubF tryM f ((c :: cs).drop n) = (c :: cs).drop n := by
            apply ih
            · have hlen : ((c :: cs).drop n).length = (c :: cs).length - n := by simp
              rw [hlen]
              have h1 : (c :: cs).length ≤ f + 1 := hl
              omega
            · intro j hjl n' r' hm
              rw [List.drop_drop] at hm
              have hb : n + j < (c :: cs).length := by
                have hlen : ((c :: cs).drop n).length = (c :: cs).length - n := by simp
                omega
              have hres := hj (n + j) hb n' r' hm
              rw [List.drop_drop]
              exact hres
          rw [hrec, List.take_append_drop]

theorem tryCoefFix_none_head {lit : List Char} {ceil : PyNum} {clamp : List Char}
    {c : Char} {cs : List Char} (h : pyIsDigit c = false) :
    tryCoefFix lit ceil clamp (c :: cs) = none := by
  simp [tryCoefFix, scanNum, countWhile, h]

theorem scanNum_digits_star {ds rest : List Char}
    (hne : ds ≠ []) (hall : ∀ a ∈ ds, pyIsDigit a = true) :
    scanNum (ds ++ '*' :: rest) = some (⟨natOfDigits ds 0, 0⟩, ds.length) := by
  simp only [scanNum]
  rw [countWhile_append_cons hall (by decide)]
  rw [if_neg (by simpa using hne)]
  rw [List.take_left, List.drop_left]
  split
  · next r2 heq => simp at heq
  · rfl

theorem tryCoefFix_digits {lit : List Char} {ceil : PyNum} {clamp : List Char}
    {ds rest : List Char} (hne : ds ≠ []) (hall : ∀ a ∈ ds, pyIsDigit a = true)
    (hsp : countWhile pyIsSpace rest = 0) :
    tryCoefFix lit ceil clamp (ds ++ '*' :: rest) =
      (if lit.isPrefixOf rest then
        some (ds.length + 0 + 1 + 0 + lit.length,
          if PyNum.ltB ceil ⟨natOfDigits ds 0, 0⟩ then clamp ++ '*' :: lit
          else (ds ++ '*' :: rest).take (ds.length + 0 + 1 + 0 + lit.length))
       else none) := by
  simp only [tryCoefFix, scanNum_digits_star hne hall]
  rw [List.drop_left]
  have h1 : countWhile pyIsSpace ('*' :: rest) = 0 := by
    simp [countWhile, show pyIsSpace '*' = false from rfl]
  rw [h1, List.drop_zero]
  simp only [hsp, List.drop_zero]

theorem tryKwNumFix_none_head {k0 : Char} {krest : List Char} {t : PyNum}
    {rt : List Char} {c : Char} {cs : List Char} (h : (k0 == c) = false) :
    tryKwNumFix (k0 :: krest) t rt (c :: cs) = none := by
  simp [tryKwNumFix, List.isPrefixOf_cons₂, h]

/-- A head-character criterion that forces "no match" at every cut of `l`. -/
theorem cutsNone_of_heads {tryM : List Char → Option (Nat × List Char)}
    {P : Char → Bool} (hP : ∀ c cs, P c = true → tryM (c :: cs) = none)
    {l : List Char} (hall : ∀ a ∈ l, P a = true) :
    ∀ j, j < l.length → tryM (l.drop j) = none := by
  intro j hj
  rw [List.drop_eq_getElem_cons hj]
  exact hP _ _ (hall _ (l.getElem_mem hj))

theorem cutsNone_append {tryM : List Char → Option (Nat × List Char)} {A B : List Char}
    (hA : ∀ j, j < A.length → tryM (A.drop j ++ B) = none)
    (hB : ∀ j, j < B.length → tryM (B.drop j) = none) :
    ∀ j, j < (A ++ B).length → tryM ((A ++ B).drop j) = none := by
  intro j hj
  rcases Nat.lt_or_ge j A.length with h | h
  · rw [List.drop_append_of_le_length (Nat.le_of_lt h)]
    exact hA j h
  · obtain ⟨i, rfl⟩ : ∃ i, j = A.length + i := ⟨j - A.length, by omega⟩
    rw [List.drop_append]
    apply hB
    simp only [List.length_append] at hj
    omega

theorem cutsId_append {tryM : List Char → Option (Nat × List Char)} {A B : List Char}
    (hA : ∀ j, j < A.length → ∀ n r, tryM (A.drop j ++ B) = some (n, r) →
      r = (A.drop j ++ B).take n)
    (hB : ∀ j, j < B.length → ∀ n r, tryM (B.drop j) = some (n, r) → r = (B.drop j).take n) :
    ∀ j, j < (A ++ B).length → ∀ n r, tryM ((A ++ B).drop j) = some (n, r) →
      r = ((A ++ B).drop j).take n := by
  intro j hj n r hm
  rcases Nat.lt_or_ge j A.length with h | h
  · rw [List.drop_append_of_le_length (Nat.le_of_lt h)] at hm ⊢
    exact hA j h n r hm
  · obtain ⟨i, rfl⟩ : ∃ i, j = A.length + i := ⟨j - A.length, by omega⟩
    rw [List.drop_append] at hm ⊢
    apply hB i _ n r hm
    simp only [List.length_append] at hj
    omega

theorem applySubF_skip_none {tryM : List Char → Option (Nat × List Char)} :
    ∀ (A B : List Char) (fuel : Nat),
      (∀ j, j < A.length → tryM (A.drop j ++ B) = none) →
      applySubF tryM (A.length + fuel) (A ++ B) = A ++ applySubF tryM fuel B := by
  intro A
  induction A with
  | nil => intro B fuel _; simp
  | cons a as ih =>
    intro B fuel h
    have h0 : tryM (a :: (as ++ B)) = none := by
      have h' := h 0 (by simp)
      rwa [List.drop_zero, List.cons_append] at h'
    have hlen : (a :: as).length + fuel = (as.length + fuel) + 1 := by
      simp [Nat.add_right_comm]
    rw [hlen]
    simp only [List.cons_append, List.append_eq, applySubF]
    rw [ih B fuel (fun j hj => by simpa using h (j + 1) (by simpa using Nat.succ_lt_succ hj))]
    rw [h0]

theorem strOf_toList (x : List Char) : (strOf x).toList = x := rfl

theorem PyNum_ltB_iff {a b : PyNum} :
    PyNum.ltB a b = true ↔ a.mant * 10 ^ b.scale < b.mant * 10 ^ a.scale := by
  simp [PyNum.ltB]

/-- Head-criterion "no match" at the cuts of a prefix followed by a fixed tail. -/
theorem cutsNoneA_of_heads {tryM : List Char → Option (Nat × List Char)}
    {P : Char → Bool} (hP : ∀ c cs, P c = true → tryM (c :: cs) = none)
    {A : List Char} (B : List Char) (hall : ∀ a ∈ A, P a = true) :
    ∀ j, j < A.length → tryM (A.drop j ++ B) = none := by
  intro j hj
  rw [List.drop_eq_getElem_cons hj, List.cons_append]
  exact hP _ _ (hall _ (A.getElem_mem hj))

theorem cutsId_of_none {tryM : List Char → Option (Nat × List Char)} {u : List Char}
    (h : tryM u = none) :
    ∀ n r, tryM u = some (n, r) → r = u.take n := by
  intro n r hm
  rw [h] at hm
  cases hm

theorem not_beq_of_digit {k : Char} (hk : pyIsDigit k = false) {a : Char}
    (ha : pyIsDigit a = true) : (k == a) = false := by
  apply beq_eq_false_iff_ne.mpr
  intro h
  subst h
  rw [ha] at hk
  cases hk

theorem applySubF_head_match {tryM : List Char → Option (Nat × List Char)}
    {l : List Char} {n : Nat} {r : List Char} (h : tryM l = some (n, r)) (hn : n ≠ 0)
    (hnl : n = l.length) (fuel : Nat) (hf : l.length = fuel + 1) :
    applySubF tryM (fuel + 1) l = r := by
  cases l with
  | nil => simp at hf
  | cons c cs =>
    simp only [applySubF, h, if_neg hn]
    have hdrop : (c :: cs).drop n = [] := by
      rw [hnl]
      simp
    rw [hdrop]
    cases fuel <;> simp [applySubF]

theorem coef_family (ds : List Char) (hne : ds ≠ [])
    (hall : ∀ a ∈ ds, pyIsDigit a = true) :
    (2 ≤ natOfDigits ds 0 →
      fix_coordinate_bounds (strOf ("x = ".toList ++ (ds ++ "*RIGHT".toList)))
        = "x = 1.8*RIGHT") ∧
    (natOfDigits ds 0 ≤ 1 →
      fix_coordinate_bounds (strOf ("x = ".toList ++ (ds ++ "*RIGHT".toList)))
        = strOf ("x = ".toList ++ (ds ++ "*RIGHT".toList))) ∧
    fix_coordinate_bounds
        (fix_coordinate_bounds (strOf ("x = ".toList ++ (ds ++ "*RIGHT".toList))))
      = fix_coordinate_bounds (strOf ("x = ".toList ++ (ds ++ "*RIGHT".toList))) := by
  have hrw : "*RIGHT".toList = '*' :: "RIGHT".toList := rfl
  have hspR : countWhile pyIsSpace "RIGHT".toList = 0 := by decide
  have hdrop_ne : ∀ k, k < ds.length → ds.drop k ≠ [] := by
    intro k hk h
    rw [List.drop_eq_nil_iff] at h
    omega
  have hdrop_digits : ∀ k, ∀ a ∈ ds.drop k, pyIsDigit a = true :=
    fun k a ha => hall a (List.mem_of_mem_drop ha)
  -- head criterion for the directional matchers
  have hPdig : ∀ (lit : List Char) (ceil : PyNum) (clamp : List Char) c cs,
      (!pyIsDigit c) = true → tryCoefFix lit ceil clamp (c :: cs) = none :=
    fun _ _ _ c cs hc => tryCoefFix_none_head (by simpa using hc)
  have hAx : ∀ a ∈ "x = ".toList, (!pyIsDigit a) = true := by
    intro a ha
    fin_cases ha <;> decide
  have hBx : ∀ a ∈ '*' :: "RIGHT".toList, (!pyIsDigit a) = true := by
    intro a ha
    fin_cases ha <;> decide
  -- a directional rule whose literal does not begin "RIGHT" matches nowhere
  have hdir_none : ∀ (lit : List Char) (ceil : PyNum) (clamp : List Char),
      lit.isPrefixOf "RIGHT".toList = false →
      ∀ j, j < ("x = ".toList ++ (ds ++ "*RIGHT".toList)).length →
        tryCoefFix lit ceil clamp
          (("x = ".toList ++ (ds ++ "*RIGHT".toList)).drop j) = none := by
    intro lit ceil clamp hpre
    rw [hrw]
    apply cutsNone_append
    · exact cutsNoneA_of_heads (hPdig lit ceil clamp) _ hAx
    · apply cutsNone_append
      · intro k hk
        rw [tryCoefFix_digits (hdrop_ne k hk) (hdrop_digits k) hspR]
        rw [if_neg (by rw [hpre]; exact Bool.false_ne_true)]
      · exact cutsNone_of_heads (hPdig lit ceil clamp) hBx
  -- keyword rules (side_length / radius) match nowhere: no character of the
  -- script equals the keyword's first character
  have hkw_none : ∀ (k0 : Char) (krest : List Char) (t : PyNum) (rt : List Char),
      pyIsDigit k0 = false →
      (∀ a ∈ "x = ".toList, (!(k0 == a)) = true) →
      (∀ a ∈ '*' :: "RIGHT".toList, (!(k0 == a)) = true) →
      ∀ j, j < ("x = ".toList ++ (ds ++ "*RIGHT".toList)).length →
        tryKwNumFix (k0 :: krest) t rt
          (("x = ".toList ++ (ds ++ "*RIGHT".toList)).drop j) = none := by
    intro k0 krest t rt hk0 hx hb
    rw [hrw]
    have hP : ∀ c cs, (!(k0 == c)) = true →
        tryKwNumFix (k0 :: krest) t rt (c :: cs) = none :=
      fun c cs hc => tryKwNumFix_none_head (by simpa using hc)
    apply cutsNone_append
    · exact cutsNoneA_of_heads hP _ hx
    · apply cutsNone_append
      · intro k hk
        have hk' : ds.drop k ≠ [] := hdrop_ne k hk
        obtain ⟨d0, ds1, hd⟩ := List.exists_cons_of_ne_nil hk'
        rw [hd, List.cons_append]
        exact hP d0 _ (by simp [not_beq_of_digit hk0 (hdrop_digits k d0 (hd ▸ List.mem_cons_self d0 ds1))])
      · exact cutsNone_of_heads hP hb
  have h5len : "RIGHT".toList.length = 5 := rfl
  -- clamped case
  have hcl : 2 ≤ natOfDigits ds 0 →
      fix_coordinate_bounds (strOf ("x = ".toList ++ (ds ++ "*RIGHT".toList)))
        = "x = 1.8*RIGHT" := by
    intro hv
    have hltb : PyNum.ltB ⟨18, 1⟩ ⟨natOfDigits ds 0, 0⟩ = true := by
      apply PyNum_ltB_iff.mpr
      simp
      omega
    have hmatch : tryCoefFix "RIGHT".toList ⟨18, 1⟩ "1.8".toList
        (ds ++ '*' :: "RIGHT".toList)
        = some (ds.length + 0 + 1 + 0 + "RIGHT".toList.length,
            "1.8".toList ++ '*' :: "RIGHT".toList) := by
      rw [tryCoefFix_digits hne hall hspR]
      rw [if_pos (by decide)]
      rw [if_pos hltb]
    have h1 : applySub (tryCoefFix "RIGHT".toList ⟨18, 1⟩ "1.8".toList)
        ("x = ".toList ++ (ds ++ "*RIGHT".toList)) = "x = 1.8*RIGHT".toList := by
      rw [hrw]
      unfold applySub
      rw [List.length_append]
      rw [applySubF_skip_none _ _ _ (cutsNoneA_of_heads (hPdig _ _ _) _ hAx)]
      have hf : (ds ++ '*' :: "RIGHT".toList).length = (ds.length + 5) + 1 := by
        rw [List.length_append, show ('*' :: "RIGHT".toList).length = 6 from rfl]
      rw [hf]
      have hstep := applySubF_head_match hmatch (by omega) (by
        rw [List.length_append, show ('*' :: "RIGHT".toList).length = 6 from rfl, h5len])
        (ds.length + 5) hf
      rw [hstep]
      decide
    simp only [fix_coordinate_bounds, strOf_toList]
    rw [h1]
    decide
  -- identity case
  have hid : natOfDigits ds 0 ≤ 1 →
      fix_coordinate_bounds (strOf ("x = ".toList ++ (ds ++ "*RIGHT".toList)))
        = strOf ("x = ".toList ++ (ds ++ "*RIGHT".toList)) := by
    intro hv
    have h1 : applySub (tryCoefFix "RIGHT".toList ⟨18, 1⟩ "1.8".toList)
        ("x = ".toList ++ (ds ++ "*RIGHT".toList))
        = "x = ".toList ++ (ds ++ "*RIGHT".toList) := by
      rw [hrw]
      unfold applySub
      apply applySubF_id _ _ (le_refl _)
      apply cutsId_append
      · intro j hj n r hm
        exact cutsId_of_none (cutsNoneA_of_heads (hPdig _ _ _) _ hAx j hj) n r hm
      · apply cutsId_append
        · intro k hk n r hm
          rw [tryCoefFix_digits (hdrop_ne k hk) (hdrop_digits k) hspR] at hm
          rw [if_pos (by decide)] at hm
          have hvk : natOfDigits (ds.drop k) 0 ≤ 1 :=
            le_trans (natOfDigits_drop_le ds k) hv
          have hltb : PyNum.ltB ⟨18, 1⟩ ⟨natOfDigits (ds.drop k) 0, 0⟩ = false := by
            apply Bool.eq_false_iff.mpr
            intro hb
            have h18 := PyNum_ltB_iff.mp hb
            simp at h18
            omega
          rw [if_neg (by simp [hltb])] at hm
          simp only [Option.some.injEq, Prod.mk.injEq] at hm
          obtain ⟨hn, hr⟩ := hm
          subst hn
          exact hr.symm
        · intro j hj n r hm
          exact cutsId_of_none (cutsNone_of_heads (hPdig _ _ _) hBx j hj) n r hm
    have h2 : applySub (tryCoefFix "UP".toList ⟨20, 1⟩ "2.0".toList)
        ("x = ".toList ++ (ds ++ "*RIGHT".toList))
        = "x = ".toList ++ (ds ++ "*RIGHT".toList) := by
      unfold applySub
      exact applySubF_none _ _ (le_refl _) (hdir_none _ _ _ (by decide))
    have h3 : applySub (tryCoefFix "DOWN".toList ⟨20, 1⟩ "2.0".toList)
        ("x = ".toList ++ (ds ++ "*RIGHT".toList))
        = "x = ".toList ++ (ds ++ "*RIGHT".toList) := by
      unfold applySub
      exact applySubF_none _ _ (le_refl _) (hdir_none _ _ _ (by decide))
    have h4 : applySub (tryCoefFix "LEFT".toList ⟨18, 1⟩ "1.8".toList)
        ("x = ".toList ++ (ds ++ "*RIGHT".toList))
        = "x = ".toList ++ (ds ++ "*RIGHT".toList) := by
      unfold applySub
      exact applySubF_none _ _ (le_refl _) (hdir_none _ _ _ (by decide))
    have h5 : applySub (tryKwNumFix "side_length".toList ⟨16, 1⟩ "side_length=1.6".toList)
        ("x = ".toList ++ (ds ++ "*RIGHT".toList))
        = "x = ".toList ++ (ds ++ "*RIGHT".toList) := by
      unfold applySub
      exact applySubF_none _ _ (le_refl _)
        (hkw_none 's' "ide_length".toList _ _ (by decide)
          (by intro a ha; fin_cases ha <;> decide)
          (by intro a ha; fin_cases ha <;> decide))
    have h6 : applySub (tryKwNumFix "radius".toList ⟨13, 1⟩ "radius=1.3".toList)
        ("x = ".toList ++ (ds ++ "*RIGHT".toList))
        = "x = ".toList ++ (ds ++ "*RIGHT".toList) := by
      unfold applySub
      exact applySubF_none _ _ (le_refl _)
        (hkw_none 'r' "adius".toList _ _ (by decide)
          (by intro a ha; fin_cases ha <;> decide)
          (by intro a ha; fin_cases ha <;> decide))
    simp only [fix_coordinate_bounds, strOf_toList]
    rw [h1, h2, h3, h4, h5, h6]
  refine ⟨hcl, hid, ?_⟩
  by_cases hc : 2 ≤ natOfDigits ds 0
  · rw [hcl hc]
    decide
  · have hv : natOfDigits ds 0 ≤ 1 := by omega
    rw [hid hv]
    exact hid hv

/-! ## Auxiliary lemmas for the integer-keyed auto-fixer passes -/

theorem tryVertexFix_none_head {c : Char} {cs : List Char} (h : ('.' == c) = false) :
    tryVertexFix (c :: cs) = none := by
  rw [tryVertexFix, show ".get_vertices()[".toList = '.' :: "get_vertices()[".toList from rfl,
    List.isPrefixOf_cons₂]
  simp [h]

theorem tryIntCoefFix_none_head {lit clampTxt : List Char} {c : Char} {cs : List Char}
    (h : pyIsDigit c = false) : tryIntCoefFix lit clampTxt (c :: cs) = none := by
  simp [tryIntCoefFix, countWhile, h]

theorem tryIntCoefFix_digits {lit clampTxt : List Char} {ds rest : List Char}
    (hne : ds ≠ []) (hall : ∀ a ∈ ds, pyIsDigit a = true) :
    tryIntCoefFix lit clampTxt (ds ++ '*' :: rest) =
      (if lit.isPrefixOf rest then
        some (ds.length + 1 + lit.length,
          if PyNum.ltB ⟨15, 1⟩ ⟨natOfDigits ds 0, 0⟩ then clampTxt ++ '*' :: lit
          else (ds ++ '*' :: rest).take (ds.length + 1 + lit.length))
       else none) := by
  rw [tryIntCoefFix]
  rw [countWhile_append_cons hall (by decide)]
  rw [if_neg (by simp [List.length_eq_zero, hne])]
  rw [List.drop_left]
  rw [List.take_left]
  split
  · next r2 heq =>
    injection heq with h1 h2
    subst h2
    rfl
  · next heq =>
    exact absurd rfl (heq rest)

theorem idxOfSeq_none_of_heads {w0 : Char} {wr l : List Char}
    (h : ∀ c ∈ l, (w0 == c) = false) : idxOfSeq (w0 :: wr) l = none := by
  induction l with
  | nil => simp [idxOfSeq]
  | cons c cs ih =>
    rw [idxOfSeq, List.isPrefixOf_cons₂]
    rw [if_neg (by simp [h c (List.mem_cons_self c cs)])]
    rw [ih (fun x hx => h x (List.mem_cons_of_mem c hx))]
    rfl

theorem riemannMatchAux_none {l : List Char}
    (h : ∀ pos, idxOfSeq "axes.get_riemann_rectangles(".toList (l.drop pos) = none) :
    ∀ fuel pos, riemannMatchAux fuel l pos = none := by
  intro fuel
  induction fuel with
  | zero => intro pos; rfl
  | succ n _ =>
    intro pos
    rw [riemannMatchAux, h pos]

theorem riemannSubAll_id {l : List Char} (h : ∀ c ∈ l, ('a' == c) = false) :
    riemannSubAll l = l := by
  have hpos : ∀ pos,
      idxOfSeq "axes.get_riemann_rectangles(".toList (l.drop pos) = none := by
    intro pos
    rw [show "axes.get_riemann_rectangles(".toList
        = 'a' :: "xes.get_riemann_rectangles(".toList from rfl]
    exact idxOfSeq_none_of_heads (fun c hc => h c (List.mem_of_mem_drop hc))
  cases l with
  | nil => rfl
  | cons c cs =>
    rw [riemannSubAll, List.length_cons, riemannSubAllF,
      riemannMatchAux_none hpos (cs.length + 2) 0]

theorem listInfix_false_of_heads {w0 : Char} {wr l : List Char}
    (h : ∀ c ∈ l, (w0 == c) = false) : listInfix (w0 :: wr) l = false := by
  induction l with
  | nil => rfl
  | cons c cs ih =>
    rw [listInfix, List.isPrefixOf_cons₂]
    simp [h c (List.mem_cons_self c cs),
      ih (fun x hx => h x (List.mem_cons_of_mem c hx))]

theorem listInfix_false_of_cuts {w l : List Char} (hw : w ≠ [])
    (h : ∀ j, j < l.length → w.isPrefixOf (l.drop j) = false) :
    listInfix w l = false := by
  induction l with
  | nil =>
    obtain ⟨w0, wr, rfl⟩ := List.exists_cons_of_ne_nil hw
    rfl
  | cons c cs ih =>
    rw [listInfix]
    have h0 := h 0 (by simp)
    rw [List.drop_zero] at h0
    rw [h0, Bool.false_or]
    apply ih
    intro j hj
    have hj1 := h (j + 1) (by simp; omega)
    rwa [List.drop_succ_cons] at hj1


theorem isPrefixOf_false_of_head {w0 c : Char} {wr cs : List Char}
    (h : (w0 == c) = false) : (w0 :: wr).isPrefixOf (c :: cs) = false := by
  rw [List.isPrefixOf_cons₂]
  simp [h]

theorem int_coef_family (ds : List Char) (hne : ds ≠ [])
    (hall : ∀ a ∈ ds, pyIsDigit a = true) :
    (2 ≤ natOfDigits ds 0 →
      auto_fix_large_coordinates (strOf ("x = ".toList ++ (ds ++ "*RIGHT".toList)))
        = "x = 1*RIGHT") ∧
    (natOfDigits ds 0 ≤ 1 →
      auto_fix_large_coordinates (strOf ("x = ".toList ++ (ds ++ "*RIGHT".toList)))
        = strOf ("x = ".toList ++ (ds ++ "*RIGHT".toList))) ∧
    auto_fix_large_coordinates
        (auto_fix_large_coordinates (strOf ("x = ".toList ++ (ds ++ "*RIGHT".toList))))
      = auto_fix_large_coordinates (strOf ("x = ".toList ++ (ds ++ "*RIGHT".toList))) := by
  have hrw : "*RIGHT".toList = '*' :: "RIGHT".toList := rfl
  have hdrop_ne : ∀ k, k < ds.length → ds.drop k ≠ [] := by
    intro k hk h
    rw [List.drop_eq_nil_iff] at h
    omega
  have hdrop_digits : ∀ k, ∀ a ∈ ds.drop k, pyIsDigit a = true :=
    fun k a ha => hall a (List.mem_of_mem_drop ha)
  -- membership over the whole family script from per-zone facts
  have hmemAllF : ∀ (k : Char), pyIsDigit k = false →
      (∀ a ∈ "x = ".toList, (k == a) = false) →
      (∀ a ∈ '*' :: "RIGHT".toList, (k == a) = false) →
      ∀ a ∈ "x = ".toList ++ (ds ++ "*RIGHT".toList), (k == a) = false := by
    intro k hk hA hB a ha
    rcases List.mem_append.mp ha with h | h
    · exact hA a h
    · rcases List.mem_append.mp h with h2 | h2
      · exact not_beq_of_digit hk (hall a h2)
      · exact hB a (hrw ▸ h2)
  -- the riemann pre-pass leaves the script untouched
  have hriem : auto_fix_riemann_rectangles_opacity
      (strOf ("x = ".toList ++ (ds ++ "*RIGHT".toList)))
      = strOf ("x = ".toList ++ (ds ++ "*RIGHT".toList)) := by
    have hid : riemannSubAll ("x = ".toList ++ (ds ++ "*RIGHT".toList))
        = "x = ".toList ++ (ds ++ "*RIGHT".toList) :=
      riemannSubAll_id (hmemAllF 'a' (by decide)
        (by intro a ha; fin_cases ha <;> decide)
        (by intro a ha; fin_cases ha <;> decide))
    simp only [auto_fix_riemann_rectangles_opacity]
    rw [strOf_toList, hid]
    simp
  -- vertex-arithmetic pass: no '.' anywhere, so no match at any cut
  have hdot := hmemAllF '.' (by decide)
    (by intro a ha; fin_cases ha <;> decide)
    (by intro a ha; fin_cases ha <;> decide)
  have hPdot : ∀ c cs, (!('.' == c)) = true → tryVertexFix (c :: cs) = none :=
    fun c cs hc => tryVertexFix_none_head (by simpa using hc)
  have hPdigI : ∀ (lit clampTxt : List Char) c cs, (!pyIsDigit c) = true →
      tryIntCoefFix lit clampTxt (c :: cs) = none :=
    fun _ _ c cs hc => tryIntCoefFix_none_head (by simpa using hc)
  have hvert : applySub tryVertexFix ("x = ".toList ++ (ds ++ "*RIGHT".toList))
      = "x = ".toList ++ (ds ++ "*RIGHT".toList) := by
    unfold applySub
    apply applySubF_none _ _ (le_refl _)
    exact cutsNone_of_heads hPdot (fun a ha => by simp [hdot a ha])
  -- a directional rule whose literal does not begin "RIGHT" matches nowhere
  have hdir_none : ∀ (lit clampTxt : List Char),
      lit.isPrefixOf "RIGHT".toList = false →
      ∀ j, j < ("x = ".toList ++ (ds ++ "*RIGHT".toList)).length →
        tryIntCoefFix lit clampTxt
          (("x = ".toList ++ (ds ++ "*RIGHT".toList)).drop j) = none := by
    intro lit clampTxt hpre
    rw [hrw]
    apply cutsNone_append
    · exact cutsNoneA_of_heads (hPdigI lit clampTxt) _
        (by intro a ha; fin_cases ha <;> decide)
    · apply cutsNone_append
      · intro k hk
        rw [tryIntCoefFix_digits (hdrop_ne k hk) (hdrop_digits k)]
        rw [if_neg (by rw [hpre]; exact Bool.false_ne_true)]
      · exact cutsNone_of_heads (hPdigI lit clampTxt)
          (by intro a ha; fin_cases ha <;> decide)
  have hU : applySub (tryIntCoefFix "UP".toList "1.2".toList)
      ("x = ".toList ++ (ds ++ "*RIGHT".toList))
      = "x = ".toList ++ (ds ++ "*RIGHT".toList) := by
    unfold applySub
    exact applySubF_none _ _ (le_refl _) (hdir_none _ _ (by decide))
  have hDn : applySub (tryIntCoefFix "DOWN".toList "1.2".toList)
      ("x = ".toList ++ (ds ++ "*RIGHT".toList))
      = "x = ".toList ++ (ds ++ "*RIGHT".toList) := by
    unfold applySub
    exact applySubF_none _ _ (le_refl _) (hdir_none _ _ (by decide))
  have hL : applySub (tryIntCoefFix "LEFT".toList "1".toList)
      ("x = ".toList ++ (ds ++ "*RIGHT".toList))
      = "x = ".toList ++ (ds ++ "*RIGHT".toList) := by
    unfold applySub
    exact applySubF_none _ _ (le_refl _) (hdir_none _ _ (by decide))
  have hsc := hmemAllF 's' (by decide)
    (by intro a ha; fin_cases ha <;> decide)
    (by intro a ha; fin_cases ha <;> decide)
  have hPs : ∀ c cs, (!('s' == c)) = true →
      tryKwNumFix ('s' :: "ide_length".toList) ⟨15, 1⟩ "side_length=1.2".toList
        (c :: cs) = none :=
    fun c cs hc => tryKwNumFix_none_head (by simpa using hc)
  have hS : applySub (tryKwNumFix "side_length".toList ⟨15, 1⟩ "side_length=1.2".toList)
      ("x = ".toList ++ (ds ++ "*RIGHT".toList))
      = "x = ".toList ++ (ds ++ "*RIGHT".toList) := by
    unfold applySub
    apply applySubF_none _ _ (le_refl _)
    exact cutsNone_of_heads hPs (fun a ha => by simp [hsc a ha])
  -- the layout-injection gates are all closed: the needed substrings are absent
  have hPoly : listInfix "Polygon(".toList ("x = ".toList ++ (ds ++ "*RIGHT".toList))
      = false :=
    listInfix_false_of_heads (hmemAllF 'P' (by decide)
      (by intro a ha; fin_cases ha <;> decide)
      (by intro a ha; fin_cases ha <;> decide))
  have hSquare : listInfix "Square(".toList ("x = ".toList ++ (ds ++ "*RIGHT".toList))
      = false :=
    listInfix_false_of_heads (hmemAllF 'S' (by decide)
      (by intro a ha; fin_cases ha <;> decide)
      (by intro a ha; fin_cases ha <;> decide))
  have hCircle : listInfix "Circle(".toList ("x = ".toList ++ (ds ++ "*RIGHT".toList))
      = false :=
    listInfix_false_of_heads (hmemAllF 'C' (by decide)
      (by intro a ha; fin_cases ha <;> decide)
      (by intro a ha; fin_cases ha <;> decide))
  have hprobeEq : ∀ u : List Char,
      ((fun u => if "Text(".toList.isPrefixOf u then some (0, ([] : List Char))
        else none) u = none) ↔ "Text(".toList.isPrefixOf u = false := by
    intro u
    cases hb : "Text(".toList.isPrefixOf u <;> simp only [hb] <;> simp
  have hText : listInfix "Text(".toList ("x = ".toList ++ (ds ++ "*RIGHT".toList))
      = false := by
    apply listInfix_false_of_cuts (by decide)
    have hcuts : ∀ j, j < ("x = ".toList ++ (ds ++ "*RIGHT".toList)).length →
        (fun u => if "Text(".toList.isPrefixOf u then some (0, ([] : List Char))
          else none) (("x = ".toList ++ (ds ++ "*RIGHT".toList)).drop j) = none := by
      have hP : ∀ c cs, (!('T' == c)) = true →
          (fun u => if "Text(".toList.isPrefixOf u then some (0, ([] : List Char))
            else none) (c :: cs) = none := by
        intro c cs hc
        refine (hprobeEq _).mpr ?_
        rw [show "Text(".toList = 'T' :: "ext(".toList from rfl]
        exact isPrefixOf_false_of_head (by simpa using hc)
      have hTA : ∀ a ∈ "x = ".toList, (!('T' == a)) = true := by
        intro a ha
        fin_cases ha <;> decide
      rw [hrw]
      refine @cutsNone_append
        (fun u => if "Text(".toList.isPrefixOf u then some (0, ([] : List Char))
          else none) ("x = ".toList) (ds ++ '*' :: "RIGHT".toList) ?_ ?_
      · exact @cutsNoneA_of_heads
          (fun u => if "Text(".toList.isPrefixOf u then some (0, ([] : List Char))
            else none)
          (fun a => !('T' == a)) hP "x = ".toList (ds ++ '*' :: "RIGHT".toList) hTA
      · refine @cutsNone_append
          (fun u => if "Text(".toList.isPrefixOf u then some (0, ([] : List Char))
            else none) ds ('*' :: "RIGHT".toList) ?_ ?_
        · intro k hk
          obtain ⟨d0, ds1, hd⟩ := List.exists_cons_of_ne_nil (hdrop_ne k hk)
          rw [hd, List.cons_append]
          exact hP d0 _ (by
            simp [not_beq_of_digit (show pyIsDigit 'T' = false from by decide)
              (hdrop_digits k d0 (hd ▸ List.mem_cons_self d0 ds1))])
        · intro j hj
          refine (hprobeEq _).mpr ?_
          revert hj
          rw [show ('*' :: "RIGHT".toList).length = 6 from rfl]
          revert j
          decide
    intro j hj
    exact (hprobeEq _).mp (hcuts j hj)
  have hgeom : geomPositionFix ("x = ".toList ++ (ds ++ "*RIGHT".toList))
      = "x = ".toList ++ (ds ++ "*RIGHT".toList) := by
    unfold geomPositionFix
    rw [hPoly, hSquare, hCircle, Bool.false_or, Bool.false_or]
    rfl
  have htitle : titleFix ("x = ".toList ++ (ds ++ "*RIGHT".toList))
      = "x = ".toList ++ (ds ++ "*RIGHT".toList) := by
    unfold titleFix
    rw [hText, Bool.and_false]
    rfl
  have hcorner : textCornerFix ("x = ".toList ++ (ds ++ "*RIGHT".toList))
      = "x = ".toList ++ (ds ++ "*RIGHT".toList) := by
    unfold textCornerFix
    rw [hText, Bool.and_false, Bool.false_and]
    rfl
  have hfont : fontSizeFix ("x = ".toList ++ (ds ++ "*RIGHT".toList))
      = "x = ".toList ++ (ds ++ "*RIGHT".toList) := by
    unfold fontSizeFix
    rw [hText, Bool.and_false]
    rfl
  have harr : arrangeFix ("x = ".toList ++ (ds ++ "*RIGHT".toList))
      = "x = ".toList ++ (ds ++ "*RIGHT".toList) := by
    unfold arrangeFix
    rw [hPoly, hSquare, hCircle, Bool.false_or, Bool.false_or, Bool.false_and,
      Bool.false_and]
    rfl
  -- clamped case
  have hcl : 2 ≤ natOfDigits ds 0 →
      auto_fix_large_coordinates (strOf ("x = ".toList ++ (ds ++ "*RIGHT".toList)))
        = "x = 1*RIGHT" := by
    intro hv
    have hltb : PyNum.ltB ⟨15, 1⟩ ⟨natOfDigits ds 0, 0⟩ = true := by
      apply PyNum_ltB_iff.mpr
      simp
      omega
    have hmatch : tryIntCoefFix "RIGHT".toList "1".toList
        (ds ++ '*' :: "RIGHT".toList)
        = some (ds.length + 1 + "RIGHT".toList.length,
            "1".toList ++ '*' :: "RIGHT".toList) := by
      rw [tryIntCoefFix_digits hne hall]
      rw [if_pos (by decide)]
      rw [if_pos hltb]
    have hR : applySub (tryIntCoefFix "RIGHT".toList "1".toList)
        ("x = ".toList ++ (ds ++ "*RIGHT".toList)) = "x = 1*RIGHT".toList := by
      rw [hrw]
      unfold applySub
      rw [List.length_append]
      rw [applySubF_skip_none _ _ _ (cutsNoneA_of_heads
        (hPdigI "RIGHT".toList "1".toList) _
        (by intro a ha; fin_cases ha <;> decide))]
      have hf : (ds ++ '*' :: "RIGHT".toList).length = (ds.length + 5) + 1 := by
        rw [List.length_append, show ('*' :: "RIGHT".toList).length = 6 from rfl]
      rw [hf]
      have h5len : "RIGHT".toList.length = 5 := rfl
      have hstep := applySubF_head_match hmatch (by omega) (by
        rw [List.length_append, show ('*' :: "RIGHT".toList).length = 6 from rfl,
          h5len]) (ds.length + 5) hf
      rw [hstep]
      decide
    simp only [auto_fix_large_coordinates, hriem, strOf_toList, hvert, hR]
    decide
  -- identity case
  have hid : natOfDigits ds 0 ≤ 1 →
      auto_fix_large_coordinates (strOf ("x = ".toList ++ (ds ++ "*RIGHT".toList)))
        = strOf ("x = ".toList ++ (ds ++ "*RIGHT".toList)) := by
    intro hv
    have hR : applySub (tryIntCoefFix "RIGHT".toList "1".toList)
        ("x = ".toList ++ (ds ++ "*RIGHT".toList))
        = "x = ".toList ++ (ds ++ "*RIGHT".toList) := by
      rw [hrw]
      unfold applySub
      apply applySubF_id _ _ (le_refl _)
      apply cutsId_append
      · intro j hj n r hm
        exact cutsId_of_none (cutsNoneA_of_heads
          (hPdigI "RIGHT".toList "1".toList) _
          (by intro a ha; fin_cases ha <;> decide) j hj) n r hm
      · apply cutsId_append
        · intro k hk n r hm
          rw [tryIntCoefFix_digits (hdrop_ne k hk) (hdrop_digits k)] at hm
          rw [if_pos (by decide)] at hm
          have hvk : natOfDigits (ds.drop k) 0 ≤ 1 :=
            le_trans (natOfDigits_drop_le ds k) hv
          have hltb : PyNum.ltB ⟨15, 1⟩ ⟨natOfDigits (ds.drop k) 0, 0⟩ = false := by
            apply Bool.eq_false_iff.mpr
            intro hb
            have h15 := PyNum_ltB_iff.mp hb
            simp at h15
            omega
          rw [if_neg (by simp [hltb])] at hm
          simp only [Option.some.injEq, Prod.mk.injEq] at hm
          obtain ⟨hn, hr⟩ := hm
          subst hn
          exact hr.symm
        · intro j hj n r hm
          exact cutsId_of_none (cutsNone_of_heads
            (hPdigI "RIGHT".toList "1".toList)
            (by intro a ha; fin_cases ha <;> decide) j hj) n r hm
    simp only [auto_fix_large_coordinates, hriem, strOf_toList, hvert, hR, hU, hDn,
      hL, hS, hgeom, htitle, hcorner, hfont, harr]
  refine ⟨hcl, hid, ?_⟩
  by_cases hc : 2 ≤ natOfDigits ds 0
  · rw [hcl hc]
    decide
  · have hv : natOfDigits ds 0 ≤ 1 := by omega
    rw [hid hv]
    exact hid hv

/-! ## C1 — development bypass (corrected) -/

/-- C1 counterexample: with `BYPASS_AUTH=true`, the optional-auth dependency
used by `/generate` is *not* replaced by the stub — a request without an
`Authorization` header still resolves to no user, not to the fixed test
identity, contradicting the claim that both entry points are stubbed. -/
theorem bypass_optional_auth_counterexample :
    (authEntryPoints (bypass_env_flag bypass_env)).optional_auth
      (fun _ => none) none ≠ some test_user := by
  decide

/-- C1 (amended): enabling `BYPASS_AUTH` replaces only the required-auth
dependency (`verify_token` / `get_current_user`, used by `/auth/me` and
`/auth/verify`), which then returns the fixed test identity for every
request; the optional-auth dependency used by `/generate` is left exactly as
in non-bypass mode, so anonymous requests stay anonymous. -/
theorem bypass_auth_amended :
    bypass_env_flag bypass_env = true ∧
    (∀ (get_user : String → Option AuthUser) (cred : Option String),
      (authEntryPoints true).get_current_user get_user cred = .ok test_user) ∧
    (authEntryPoints true).optional_auth = optional_auth ∧
    (∀ (get_user : String → Option AuthUser) (header : Option String),
      (authEntryPoints true).optional_auth get_user header
        = (authEntryPoints false).optional_auth get_user header) ∧
    (∀ get_user : String → Option AuthUser,
      (authEntryPoints true).optional_auth get_user none = none) :=
  ⟨by decide, fun _ _ => rfl, rfl, fun _ _ => rfl, fun _ => rfl⟩

/-! ## C2 — layout-linter round trip (corrected) -/

/-- C2 counterexample: after the optimizer's full pass the script still fails
the static layout check — the injected grouping block mentions `'title'`,
which trips the linter's title-position test. -/
theorem layout_roundtrip_counterexample :
    test_manim_script_layout_issues (optimize_script roundtrip_example_script) ≠ [] := by
  decide

/-- C2 (amended): the unoptimized script fails the static layout check with
the two "Large coordinate" findings and the "Graphics not positioned"
finding; after `optimize_script` those findings are gone (coordinates
clamped, triangle canonicalized, right-zone anchor injected), but the check
still fails, now with exactly the title-position finding caused by the word
`'title'` inside the injected grouping block's exclusion list. -/
theorem layout_roundtrip_amended :
    test_manim_script_layout_issues roundtrip_example_script =
      ["Large coordinate found: 4 (must be ≤1.2 for right zone)",
       "Large coordinate found: 8 (must be ≤1.2 for right zone)",
       "Graphics not positioned in right zone (must use .move_to(RIGHT*3))"] ∧
    test_manim_script_layout_issues (optimize_script roundtrip_example_script) =
      ["Title not positioned at top (must use title.to_edge(UP, buff=0.5))"] := by
  constructor
  · decide
  · decide

/-! ## C3 — duration-mismatch remediation selection (confirmed) -/

/-- C3: the remediation branch of `combine_audio_video` is selected by the
ratio `audio_duration / video_duration`: 15/30 pads the audio, 40/30 takes
the freeze-frame extension (falling back to looping when the re-encode
fails), and 28/30 keeps the plain shortest-stream trim, whose command
carries `-shortest` and no `-filter_complex` graph. -/
theorem combine_branch_selection :
    (combine_audio_video_plan "v.mp4" "a.mp3" "o.mp4" (some 30) 15 true).1
      = MuxPath.padAudio ∧
    (combine_audio_video_plan "v.mp4" "a.mp3" "o.mp4" (some 30) 15 false).1
      = MuxPath.padAudio ∧
    (combine_audio_video_plan "v.mp4" "a.mp3" "o.mp4" (some 30) 40 true).1
      = MuxPath.extendFreeze ∧
    (combine_audio_video_plan "v.mp4" "a.mp3" "o.mp4" (some 30) 40 false).1
      = MuxPath.loopFallback ∧
    (combine_audio_video_plan "v.mp4" "a.mp3" "o.mp4" (some 30) 28 true)
      = (MuxPath.defaultShortest, default_mux_cmd "v.mp4" "a.mp3" "o.mp4") ∧
    "-shortest" ∈ default_mux_cmd "v.mp4" "a.mp3" "o.mp4" ∧
    "-filter_complex" ∉ default_mux_cmd "v.mp4" "a.mp3" "o.mp4" := by
  refine ⟨?_, ?_, ?_, ?_, ?_, by decide, by decide⟩ <;>
    · simp only [combine_audio_video_plan]
      norm_num

/-! ## C4 — integer-keyed coordinate clamps in the auto-fixer (corrected) -/

/-- C4 counterexample: the directional patterns `(\d+)\*RIGHT` also match the
fractional digits of a decimal literal, so `4.5*RIGHT` is *not* left
unchanged — its fractional part is treated as the whole-number `5` and
rewritten, yielding `4.1*RIGHT`. -/
theorem auto_fix_fractional_counterexample :
    auto_fix_large_coordinates "dot.shift(4.5*RIGHT)" = "dot.shift(4.1*RIGHT)" ∧
    auto_fix_large_coordinates "dot.shift(4.5*RIGHT)" ≠ "dot.shift(4.5*RIGHT)" := by
  constructor
  · decide
  · decide

/-- C4 (amended): `auto_fix_large_coordinates` clamps whole-number
directional coefficients above 1.5 to the ceilings 1 (RIGHT/LEFT) and 1.2
(UP/DOWN) and leaves whole-number coefficients at or below 1.5 unchanged;
`side_length` literals above 1.5 — fractional ones included, since that rule
parses `\d+(\.\d+)?` with `float()` — are clamped to 1.2; but fractional
directional literals are not skipped: their digit tail matches the
integer-only pattern and is mangled (e.g. `4.5*RIGHT` ↦ `4.1*RIGHT`).  The
final conjunct states the clamping uniformly for the whole family
`x = <digits>*RIGHT`: an integer coefficient with value at least 2 is
clamped to 1, a value at most 1 is left unchanged, and the fixer is
idempotent on every script of the family. -/
theorem auto_fix_clamp_amended :
    auto_fix_large_coordinates "a.shift(4*RIGHT)" = "a.shift(1*RIGHT)" ∧
    auto_fix_large_coordinates "b.shift(3*UP)" = "b.shift(1.2*UP)" ∧
    auto_fix_large_coordinates "c.shift(3*DOWN)" = "c.shift(1.2*DOWN)" ∧
    auto_fix_large_coordinates "d.shift(2*LEFT)" = "d.shift(1*LEFT)" ∧
    auto_fix_large_coordinates "e.shift(1*RIGHT)" = "e.shift(1*RIGHT)" ∧
    auto_fix_large_coordinates "foo(side_length=1.7)" = "foo(side_length=1.2)" ∧
    auto_fix_large_coordinates "foo(side_length=1.4)" = "foo(side_length=1.4)" ∧
    auto_fix_large_coordinates "dot.shift(4.5*RIGHT)" = "dot.shift(4.1*RIGHT)" ∧
    (∀ ds : List Char, ds ≠ [] → (∀ a ∈ ds, pyIsDigit a = true) →
      (2 ≤ natOfDigits ds 0 →
        auto_fix_large_coordinates
            (strOf ("x = ".toList ++ (ds ++ "*RIGHT".toList)))
          = "x = 1*RIGHT") ∧
      (natOfDigits ds 0 ≤ 1 →
        auto_fix_large_coordinates
            (strOf ("x = ".toList ++ (ds ++ "*RIGHT".toList)))
          = strOf ("x = ".toList ++ (ds ++ "*RIGHT".toList))) ∧
      auto_fix_large_coordinates (auto_fix_large_coordinates
          (strOf ("x = ".toList ++ (ds ++ "*RIGHT".toList))))
        = auto_fix_large_coordinates
            (strOf ("x = ".toList ++ (ds ++ "*RIGHT".toList)))) := by
  refine ⟨by decide, by decide, by decide, by decide, by decide, by decide,
    by decide, by decide, int_coef_family⟩

/-- C4 witness: the family conjunct of the amended theorem instantiated at
the concrete coefficients 7 (clamped to 1) and 1 (left unchanged). -/
theorem auto_fix_clamp_amended_witness :
    (['7'] : List Char) ≠ [] ∧ (∀ a ∈ (['7'] : List Char), pyIsDigit a = true) ∧
    2 ≤ natOfDigits ['7'] 0 ∧
    auto_fix_large_coordinates (strOf ("x = ".toList ++ (['7'] ++ "*RIGHT".toList)))
      = "x = 1*RIGHT" ∧
    natOfDigits ['1'] 0 ≤ 1 ∧
    auto_fix_large_coordinates (strOf ("x = ".toList ++ (['1'] ++ "*RIGHT".toList)))
      = strOf ("x = ".toList ++ (['1'] ++ "*RIGHT".toList)) :=
  ⟨by decide, by decide, by decide,
    (auto_fix_clamp_amended.2.2.2.2.2.2.2.2 ['7'] (by decide)
      (by decide)).1 (by decide),
    by decide,
    (auto_fix_clamp_amended.2.2.2.2.2.2.2.2 ['1'] (by decide)
      (by decide)).2.1 (by decide)⟩

/-! ## C5 — status step ordering (confirmed) -/

/-- C5: for a full audio-enabled, non-subtitle-overlay run of one request on
a fresh VideoRecord, the recorded step numbers appear in creation order as
1, 2, 3, 4, 5 — in particular they are monotonically non-decreasing. -/
theorem status_steps_ordered (db : Database) (db_uuid animation_id : String)
    (timestamped_prompt : String) (user_name : Option String) (video_url : String)
    (hfresh : steps_for db db_uuid = []) :
    steps_for
        (full_generation_run db db_uuid animation_id timestamped_prompt user_name video_url)
        db_uuid
      = [1, 2, 3, 4, 5] ∧
    List.Chain' (· ≤ ·)
      (steps_for
        (full_generation_run db db_uuid animation_id timestamped_prompt user_name video_url)
        db_uuid) := by
  have hfil : db.status.filter (fun row => row.video_uuid == db_uuid) = [] :=
    List.map_eq_nil_iff.mp hfresh
  have hmain : steps_for
      (full_generation_run db db_uuid animation_id timestamped_prompt user_name video_url)
      db_uuid = [1, 2, 3, 4, 5] := by
    simp [full_generation_run, generate_request_sync, generate_video_background_happy,
      create_video_record, create_status_record, add_step_status, update_video_url,
      steps_for, List.filter_append, hfil]
  refine ⟨hmain, ?_⟩
  rw [hmain]
  norm_num [List.chain'_cons]

/-- C5 witness: the property instantiated on an empty database. -/
theorem status_steps_ordered_witness :
    steps_for
        (full_generation_run ⟨[], []⟩ "uuid-1" "anim-1" "[2025-01-01 00:00:00] prompt"
          (some "user@example.com") "https://cdn.example/v.mp4")
        "uuid-1"
      = [1, 2, 3, 4, 5] ∧
    List.Chain' (· ≤ ·)
      (steps_for
        (full_generation_run ⟨[], []⟩ "uuid-1" "anim-1" "[2025-01-01 00:00:00] prompt"
          (some "user@example.com") "https://cdn.example/v.mp4")
        "uuid-1") :=
  status_steps_ordered ⟨[], []⟩ "uuid-1" "anim-1" "[2025-01-01 00:00:00] prompt"
    (some "user@example.com") "https://cdn.example/v.mp4" rfl

/-! ## C6 — lazily created client and bucket name (corrected) -/

/-- C6 counterexample: two consecutive `get_supabase_client` calls construct
two distinct client instances (creation indices 0 and then 1) — the client
is not a cached singleton; only the configuration object is. -/
theorem supabase_client_fresh_counterexample :
    get_supabase_client demo_env supabase_module_initial
      = .ok (0, { supabase_config := some demo_cfg, clients_created := 1 }) ∧
    get_supabase_client demo_env { supabase_config := some demo_cfg, clients_created := 1 }
      = .ok (1, { supabase_config := some demo_cfg, clients_created := 2 }) ∧
    (0 : Nat) ≠ 1 :=
  ⟨rfl, rfl, by decide⟩

/-- C6 (amended): the configuration object (and with it the resolved bucket
name) is a process-wide singleton, created lazily on first access and reused
thereafter — `get_storage_bucket_name` returns the same name on every call —
but `get_supabase_client` calls `create_client` on the cached configuration
on *every* call, so each call returns a freshly constructed client rather
than the instance created on the first call. -/
theorem supabase_singleton_amended (env : String → Option String)
    (s : SupabaseModule) (c : SupabaseConfig) (s' : SupabaseModule)
    (h : get_supabase_config env s = .ok (c, s')) :
    get_supabase_config env s' = .ok (c, s') ∧
    get_storage_bucket_name env s = .ok (c.storage_bucket, s') ∧
    get_storage_bucket_name env s' = .ok (c.storage_bucket, s') ∧
    get_supabase_client env s
      = .ok (s'.clients_created, { s' with clients_created := s'.clients_created + 1 }) ∧
    get_supabase_client env { s' with clients_created := s'.clients_created + 1 }
      = .ok (s'.clients_created + 1, { s' with clients_created := s'.clients_created + 2 }) ∧
    s'.clients_created ≠ s'.clients_created + 1 := by
  have hcfg : s'.supabase_config = some c := by
    unfold get_supabase_config at h
    cases hs : s.supabase_config with
    | some c0 =>
      rw [hs] at h
      simp only [Except.ok.injEq, Prod.mk.injEq] at h
      obtain ⟨hc, hss⟩ := h
      rw [← hss, hs, hc]
    | none =>
      rw [hs] at h
      cases hi : SupabaseConfig.init env with
      | ok c1 =>
        rw [hi] at h
        simp only [Except.ok.injEq, Prod.mk.injEq] at h
        obtain ⟨hc, hss⟩ := h
        rw [← hss]
        simp [hc]
      | error e => rw [hi] at h; cases h
  have hagain : get_supabase_config env s' = .ok (c, s') := by
    unfold get_supabase_config
    rw [hcfg]
  have hbump : get_supabase_config env { s' with clients_created := s'.clients_created + 1 }
      = .ok (c, { s' with clients_created := s'.clients_created + 1 }) := by
    unfold get_supabase_config
    simp only []
    rw [show ({ s' with clients_created := s'.clients_created + 1 } : SupabaseModule).supabase_config
          = some c from hcfg]
  refine ⟨hagain, ?_, ?_, ?_, ?_, by omega⟩
  · unfold get_storage_bucket_name
    rw [h]
  · unfold get_storage_bucket_name
    rw [hagain]
  · unfold get_supabase_client
    rw [h]
    rfl
  · unfold get_supabase_client
    rw [hbump]
    rfl

/-- C6 amended witness: instantiated at a concrete environment and the fresh
module state (the lazy creation step). -/
theorem supabase_singleton_amended_witness :
    get_supabase_config demo_env demo_state1 = .ok (demo_cfg, demo_state1) ∧
    get_storage_bucket_name demo_env supabase_module_initial
      = .ok (demo_cfg.storage_bucket, demo_state1) ∧
    get_storage_bucket_name demo_env demo_state1
      = .ok (demo_cfg.storage_bucket, demo_state1) ∧
    get_supabase_client demo_env supabase_module_initial
      = .ok (demo_state1.clients_created,
             { demo_state1 with clients_created := demo_state1.clients_created + 1 }) ∧
    get_supabase_client demo_env
        { demo_state1 with clients_created := demo_state1.clients_created + 1 }
      = .ok (demo_state1.clients_created + 1,
             { demo_state1 with clients_created := demo_state1.clients_created + 2 }) ∧
    demo_state1.clients_created ≠ demo_state1.clients_created + 1 :=
  supabase_singleton_amended demo_env supabase_module_initial demo_cfg demo_state1 rfl

/-! ## C7 — idempotence of the coordinate-fix pass (corrected) -/

/-- C7 counterexample: `_fix_coordinate_bounds` is not idempotent.  On
`print("side_length=2.5.7*UP")` the first pass produces
`side_length=1.6.0*UP` and the second pass re-clamps the newly formed
`6.0*UP`, producing a different script. -/
theorem fix_coordinate_bounds_not_idempotent :
    fix_coordinate_bounds idem_counterexample_script
      = "print(\"side_length=1.6.0*UP\")" ∧
    fix_coordinate_bounds (fix_coordinate_bounds idem_counterexample_script)
      = "print(\"side_length=1.2.0*UP\")" ∧
    fix_coordinate_bounds (fix_coordinate_bounds idem_counterexample_script)
      ≠ fix_coordinate_bounds idem_counterexample_script := by
  refine ⟨?_, ?_, ?_⟩ <;> decide

/-- C7 (amended): on scripts with well-formed numeric literals the pass
behaves as claimed — the spec's own example is clamped once and is then a
fixed point, literals already at or below their ceilings (1.8 RIGHT/LEFT,
2.0 UP/DOWN, 1.6 side_length, 1.3 radius) are left entirely unchanged, and
an already-clamped value is never re-clamped; idempotence fails only when a
clamp replacement abuts a leftover fragment of a malformed chained numeral
(the counterexample).  The final conjunct states this uniformly for the
whole family `x = <digits>*RIGHT`: an integer coefficient with value at
least 2 is clamped to 1.8 and a value at most 1 is left unchanged, and the
pass is idempotent on every script of the family. -/
theorem fix_coordinate_bounds_idempotent_amended :
    fix_coordinate_bounds "Polygon(ORIGIN, 4*RIGHT, 8*UP)"
      = "Polygon(ORIGIN, 1.8*RIGHT, 2.0*UP)" ∧
    fix_coordinate_bounds (fix_coordinate_bounds "Polygon(ORIGIN, 4*RIGHT, 8*UP)")
      = fix_coordinate_bounds "Polygon(ORIGIN, 4*RIGHT, 8*UP)" ∧
    fix_coordinate_bounds
        "shape.shift(1.8*RIGHT + 2.0*UP - 1.8*LEFT)\nSquare(side_length=1.6)\nCircle(radius=1.3)"
      = "shape.shift(1.8*RIGHT + 2.0*UP - 1.8*LEFT)\nSquare(side_length=1.6)\nCircle(radius=1.3)" ∧
    fix_coordinate_bounds "t.shift(5*RIGHT)" = "t.shift(1.8*RIGHT)" ∧
    fix_coordinate_bounds (fix_coordinate_bounds "t.shift(5*RIGHT)")
      = fix_coordinate_bounds "t.shift(5*RIGHT)" ∧
    (∀ ds : List Char, ds ≠ [] → (∀ a ∈ ds, pyIsDigit a = true) →
      (2 ≤ natOfDigits ds 0 →
        fix_coordinate_bounds (strOf ("x = ".toList ++ (ds ++ "*RIGHT".toList)))
          = "x = 1.8*RIGHT") ∧
      (natOfDigits ds 0 ≤ 1 →
        fix_coordinate_bounds (strOf ("x = ".toList ++ (ds ++ "*RIGHT".toList)))
          = strOf ("x = ".toList ++ (ds ++ "*RIGHT".toList))) ∧
      fix_coordinate_bounds
          (fix_coordinate_bounds (strOf ("x = ".toList ++ (ds ++ "*RIGHT".toList))))
        = fix_coordinate_bounds (strOf ("x = ".toList ++ (ds ++ "*RIGHT".toList)))) := by
  refine ⟨by decide, by decide, by decide, by decide, by decide, coef_family⟩

/-- C7 witness: the family conjunct of the amended theorem instantiated at
the concrete coefficients 4 (clamped to 1.8) and 1 (left unchanged). -/
theorem fix_coordinate_bounds_idempotent_amended_witness :
    (['4'] : List Char) ≠ [] ∧ (∀ a ∈ (['4'] : List Char), pyIsDigit a = true) ∧
    2 ≤ natOfDigits ['4'] 0 ∧
    fix_coordinate_bounds (strOf ("x = ".toList ++ (['4'] ++ "*RIGHT".toList)))
      = "x = 1.8*RIGHT" ∧
    natOfDigits ['1'] 0 ≤ 1 ∧
    fix_coordinate_bounds (strOf ("x = ".toList ++ (['1'] ++ "*RIGHT".toList)))
      = strOf ("x = ".toList ++ (['1'] ++ "*RIGHT".toList)) :=
  ⟨by decide, by decide, by decide,
    (fix_coordinate_bounds_idempotent_amended.2.2.2.2.2 ['4'] (by decide)
      (by decide)).1 (by decide),
    by decide,
    (fix_coordinate_bounds_idempotent_amended.2.2.2.2.2 ['1'] (by decide)
      (by decide)).2.1 (by decide)⟩

/-! ## C8 — prompt validation (confirmed) -/

/-- C8: `validate_prompt` rejects the empty string, whitespace-only strings,
prompts whose trimmed length is under 3, and every prompt containing one of
the denylist substrings case-insensitively; it accepts
"Explain the Pythagorean theorem". -/
theorem validate_prompt_spec :
    validate_prompt "" = false ∧
    validate_prompt "  " = false ∧
    (∀ p : String, p.toList.all pyIsSpace = true → validate_prompt p = false) ∧
    (∀ p : String, (pyStrip p).length < 3 → validate_prompt p = false) ∧
    (∀ p k : String, k ∈ problematic_keywords → pyContains (pyLower p) k = true →
      validate_prompt p = false) ∧
    validate_prompt "Explain the Pythagorean theorem" = true := by
  refine ⟨by decide, by decide, ?_, ?_, ?_, by decide⟩
  · intro p hp
    have h1 : p.toList.dropWhile pyIsSpace = [] := by
      rw [List.dropWhile_eq_nil_iff]
      intro x hx
      exact List.all_eq_true.mp hp x hx
    have hstrip : pyStrip p = "" := by
      unfold pyStrip pyStripList
      rw [h1]
      rfl
    have : p = "" ∨ pyStrip p = "" := Or.inr hstrip
    simp [validate_prompt, this]
  · intro p hp
    by_cases h1 : p = "" ∨ pyStrip p = ""
    · simp [validate_prompt, h1]
    · simp [validate_prompt, h1, hp]
  · intro p k hk hc
    by_cases h1 : p = "" ∨ pyStrip p = ""
    · simp [validate_prompt, h1]
    · by_cases h2 : (pyStrip p).length < 3
      · simp [validate_prompt, h1, h2]
      · have hany : problematic_keywords.any (fun k => pyContains (pyLower p) k) = true :=
          List.any_eq_true.mpr ⟨k, hk, hc⟩
        simp [validate_prompt, h1, h2, hany]

/-- C8 witness: the universally quantified parts applied at concrete
prompts. -/
theorem validate_prompt_spec_witness :
    validate_prompt " \t " = false ∧
    validate_prompt "ab" = false ∧
    validate_prompt "Try to HaCk this" = false :=
  ⟨validate_prompt_spec.2.2.1 " \t " (by decide),
   validate_prompt_spec.2.2.2.1 "ab" (by decide),
   validate_prompt_spec.2.2.2.2.1 "Try to HaCk this" "hack" (by decide) (by decide)⟩

/-! ## C9 — per-language voice selection (confirmed) -/

/-- C9: a caller-specified voice other than the default `alloy` is returned
unchanged for every language; otherwise the fixed language→voice table
applies: de→onyx, fr→shimmer, es/it/pt/zh/hi→nova, ja/ko→shimmer, ru→echo,
ar→fable, en→alloy. -/
theorem get_voice_for_language_spec :
    (∀ lang v : String, v ≠ "alloy" → get_voice_for_language lang v = v) ∧
    get_voice_for_language "de" "alloy" = "onyx" ∧
    get_voice_for_language "fr" "alloy" = "shimmer" ∧
    get_voice_for_language "es" "alloy" = "nova" ∧
    get_voice_for_language "it" "alloy" = "nova" ∧
    get_voice_for_language "pt" "alloy" = "nova" ∧
    get_voice_for_language "zh" "alloy" = "nova" ∧
    get_voice_for_language "hi" "alloy" = "nova" ∧
    get_voice_for_language "ja" "alloy" = "shimmer" ∧
    get_voice_for_language "ko" "alloy" = "shimmer" ∧
    get_voice_for_language "ru" "alloy" = "echo" ∧
    get_voice_for_language "ar" "alloy" = "fable" ∧
    get_voice_for_language "en" "alloy" = "alloy" := by
  refine ⟨?_, by decide, by decide, by decide, by decide, by decide, by decide,
    by decide, by decide, by decide, by decide, by decide, by decide⟩
  intro lang v hv
  simp [get_voice_for_language, hv]

/-- C9 witness: a non-default voice is honored unchanged. -/
theorem get_voice_for_language_spec_witness :
    get_voice_for_language "de" "echo" = "echo" :=
  get_voice_for_language_spec.1 "de" "echo" (by decide)

/-! ## C10 — `update_build_status` rewrites the whole history (confirmed) -/

/-- C10: `update_build_status db_uuid msg` sets `build_status = msg` on
*every* status row whose foreign key equals `db_uuid` (not only the most
recent one), leaves rows of other VideoRecords entirely unchanged, and
preserves the `step` and `prompt` of the rewritten rows, the row count, and
the videos table. -/
theorem update_build_status_spec (db : Database) (db_uuid msg : String) :
    (update_build_status db db_uuid msg).videos = db.videos ∧
    (update_build_status db db_uuid msg).status.length = db.status.length ∧
    ∀ i : Fin db.status.length,
      (update_build_status db db_uuid msg).status.get
          (Fin.cast (by simp [update_build_status]) i) =
        (if (db.status.get i).video_uuid = db_uuid
         then { db.status.get i with build_status := msg }
         else db.status.get i) := by
  refine ⟨rfl, by simp [update_build_status], fun i => ?_⟩
  simp only [update_build_status, List.get_eq_getElem, Fin.coe_cast, List.getElem_map]

end ManimSpec
